/-
Verification of the `gda` asset-synchronisation core against its
natural-language specification.

The development shallowly embeds the Python sources:
  * `gda/services/archive.py`  (deterministic ZIP packer / unpacker),
  * `gda/services/sync.py`     (verify / pull / prune reconciliation),
  * `gda/commands/resolve.py`, `gda/commands/pull.py`, `gda/commands/push.py`,
  * `gda/models/manifest.py`, `gda/models/lockfile.py`.

Filesystems are modelled as association lists from `/`-separated relative
paths to abstract content tokens (`Nat`); archives are modelled as the list
of ZIP entries the Python `zipfile` module would serialise (filename,
fixed date_time, content); the remote store and SHA-256 are modelled as
opaque-but-pure functions supplied as parameters, which is exactly the
determinism the claims rely on.
-/
import Mathlib

namespace Gda

/-! ## String ordering

Python sorts relative paths with plain `str` comparison, i.e.
lexicographically by Unicode code point.  Lean's built-in `String.lt` does
not reduce in the kernel, so we embed the code-point comparison directly.
-/

/-- Lexicographic strict order on char lists by code point, as Python
compares strings. -/
def lexLt : List Char → List Char → Bool
  | [], [] => false
  | [], _ :: _ => true
  | _ :: _, [] => false
  | a :: as, b :: bs =>
      a.toNat < b.toNat || (a.toNat == b.toNat && lexLt as bs)

/-- Strict string order, Python's `<` on `str`. -/
def strLt (a b : String) : Bool := lexLt a.data b.data

/-- Reflexive string order used as the sorting predicate. -/
def strLe (a b : String) : Bool := !(strLt b a)

theorem lexLt_asymm : ∀ {a b : List Char}, lexLt a b = true → lexLt b a = false
  | [], [], h => by simp [lexLt] at h
  | [], _ :: _, _ => by simp [lexLt]
  | _ :: _, [], h => by simp [lexLt] at h
  | a :: as, b :: bs, h => by
      simp only [lexLt, Bool.or_eq_true, Bool.and_eq_true, beq_iff_eq,
        decide_eq_true_eq] at h ⊢
      simp only [Bool.or_eq_false_iff, Bool.and_eq_false_iff,
        decide_eq_false_iff_not, not_lt]
      rcases h with h | ⟨he, h⟩
      · exact ⟨le_of_lt h, Or.inl (by simp [Nat.ne_of_gt h])⟩
      · exact ⟨le_of_eq he, Or.inr (by simpa using lexLt_asymm h)⟩

theorem lexLt_trans : ∀ {a b c : List Char},
    lexLt a b = true → lexLt b c = true → lexLt a c = true
  | [], _, _ :: _, _, _ => by simp [lexLt]
  | [], _ :: _, [], _, h₂ => by simp [lexLt] at h₂
  | [], [], [], h₁, _ => by simp [lexLt] at h₁
  | _ :: _, [], _, h₁, _ => by simp [lexLt] at h₁
  | _ :: _, _ :: _, [], _, h₂ => by simp [lexLt] at h₂
  | a :: as, b :: bs, c :: cs, h₁, h₂ => by
      simp only [lexLt, Bool.or_eq_true, Bool.and_eq_true, beq_iff_eq,
        decide_eq_true_eq] at h₁ h₂ ⊢
      rcases h₁ with h₁ | ⟨he₁, h₁⟩ <;> rcases h₂ with h₂ | ⟨he₂, h₂⟩
      · exact Or.inl (lt_trans h₁ h₂)
      · exact Or.inl (he₂ ▸ h₁)
      · exact Or.inl (he₁ ▸ h₂)
      · exact Or.inr ⟨he₁.trans he₂, lexLt_trans h₁ h₂⟩

theorem lexLt_eq_of_not : ∀ {a b : List Char},
    lexLt a b = false → lexLt b a = false → a = b
  | [], [], _, _ => rfl
  | [], _ :: _, h₁, _ => by simp [lexLt] at h₁
  | _ :: _, [], _, h₂ => by simp [lexLt] at h₂
  | a :: as, b :: bs, h₁, h₂ => by
      simp only [lexLt, Bool.or_eq_false_iff, Bool.and_eq_false_iff,
        decide_eq_false_iff_not, not_lt, beq_eq_false_iff_ne, ne_eq] at h₁ h₂
      obtain ⟨hab, h₁'⟩ := h₁
      obtain ⟨hba, h₂'⟩ := h₂
      have he : a.toNat = b.toNat := le_antisymm hba hab
      have hc : a = b := by
        have := congrArg Char.ofNat he
        simpa [Char.ofNat_toNat] using this
      rcases h₁' with h | h
      · exact absurd he h
      · rcases h₂' with h' | h'
        · exact absurd he.symm h'
        · exact hc ▸ congrArg (a :: ·) (lexLt_eq_of_not h h')

theorem strLe_trans {a b c : String} (h₁ : strLe a b = true) (h₂ : strLe b c = true) :
    strLe a c = true := by
  simp only [strLe, strLt, Bool.not_eq_true'] at h₁ h₂ ⊢
  by_contra h
  simp only [Bool.not_eq_false] at h
  rcases Bool.eq_false_or_eq_true (lexLt b.data c.data) with hbc | hbc
  · exact absurd (lexLt_trans hbc h) (by simp [h₁])
  · have heq : c.data = b.data := lexLt_eq_of_not h₂ hbc
    exact absurd (heq ▸ h) (by simp [h₁])

theorem strLe_total (a b : String) : strLe a b = true ∨ strLe b a = true := by
  simp only [strLe, Bool.not_eq_true']
  rcases Bool.eq_false_or_eq_true (strLt b a) with h | h
  · exact Or.inr (lexLt_asymm h)
  · exact Or.inl h

theorem strLt_asymm {a b : String} (h : strLt a b = true) : strLt b a = false :=
  lexLt_asymm h

theorem strLe_of_not_strLt {a b : String} (h : strLt b a = false) : strLe a b = true := by
  simp [strLe, h]

theorem strEq_of_not_strLt {a b : String} (h₁ : strLt a b = false)
    (h₂ : strLt b a = false) : a = b := by
  have h := @lexLt_eq_of_not a.data b.data h₁ h₂
  cases a; cases b; exact congrArg String.mk h

theorem strLt_connex {a b : String} (h : a ≠ b) :
    strLt a b = true ∨ strLt b a = true := by
  rcases Bool.eq_false_or_eq_true (strLt a b) with h₁ | h₁
  · exact Or.inl h₁
  rcases Bool.eq_false_or_eq_true (strLt b a) with h₂ | h₂
  · exact Or.inr h₂
  exact absurd (strEq_of_not_strLt h₁ h₂) h

/-! ## Shell-glob matching (`fnmatch`)

`ArchiveService._matches_exclude` delegates single-pattern matching to
Python's `fnmatch.fnmatch`, which anchors the pattern at both ends and
interprets `*` (any sequence, `/` included), `?` (any single character)
and `[...]` / `[!...]` character classes; on POSIX `normcase` is the
identity.  The matcher below embeds those semantics over char lists.
-/

/-- Scan for the terminating `]` of a character class, returning the class
body and the remainder of the pattern. -/
def scanClose : List Char → Option (List Char × List Char)
  | [] => none
  | c :: r =>
      if c = ']' then some ([], r)
      else (scanClose r).map fun x => (c :: x.1, x.2)

theorem scanClose_length : ∀ {l : List Char} {c a : List Char},
    scanClose l = some (c, a) → a.length < l.length := by
  intro l
  induction l with
  | nil => intro c a h; simp [scanClose] at h
  | cons x r ih =>
      intro c a h
      simp only [scanClose] at h
      by_cases hx : x = ']'
      · rw [if_pos hx] at h
        obtain ⟨h₁, h₂⟩ := Prod.mk.injEq .. ▸ Option.some.inj h
        subst h₂
        simp
      · rw [if_neg hx] at h
        match hr : scanClose r with
        | none => rw [hr] at h; simp at h
        | some (c₀, a₀) =>
            rw [hr] at h
            simp only [Option.map_some', Option.some.injEq, Prod.mk.injEq] at h
            obtain ⟨h₁, h₂⟩ := h
            subst h₂
            have := ih hr
            simp only [List.length_cons]
            omega

/-- Strip the optional negating `!` at the start of a class body. -/
def bracketNeg (p : List Char) : Bool × List Char :=
  match p with
  | c :: r => if c = '!' then (true, r) else (false, c :: r)
  | [] => (false, [])

/-- Locate the class body after the optional `!`: a `]` directly after
`[` or `[!` is an ordinary member of the class, as in
`fnmatch.translate`. -/
def bracketBody (rest : List Char) : Option (List Char × List Char) :=
  match rest with
  | c :: r =>
      if c = ']' then (scanClose r).map fun x => (']' :: x.1, x.2)
      else scanClose (c :: r)
  | [] => none

/-- Parse the body of a `[...]` class the way `fnmatch.translate` does.
Returns `none` when the class is never closed, in which case `[` matches
literally. -/
def bracketContent (p : List Char) : Option (Bool × List Char × List Char) :=
  (bracketBody (bracketNeg p).2).map fun x => ((bracketNeg p).1, x.1, x.2)

theorem bracketNeg_length (p : List Char) : (bracketNeg p).2.length ≤ p.length := by
  rcases p with _ | ⟨c, r⟩
  · simp [bracketNeg]
  · by_cases hc : c = '!' <;> simp [bracketNeg, hc]

theorem bracketBody_length {rest : List Char} {c a : List Char}
    (h : bracketBody rest = some (c, a)) : a.length ≤ rest.length := by
  rcases rest with _ | ⟨x, r⟩
  · simp [bracketBody] at h
  · by_cases hx : x = ']'
    · simp only [bracketBody, if_pos hx] at h
      match hr : scanClose r with
      | none => rw [hr] at h; simp at h
      | some (c₀, a₀) =>
          rw [hr] at h
          simp only [Option.map_some', Option.some.injEq, Prod.mk.injEq] at h
          obtain ⟨h₁, h₂⟩ := h
          subst h₂
          have := scanClose_length hr
          simp only [List.length_cons]
          omega
    · simp only [bracketBody, if_neg hx] at h
      have := scanClose_length h
      omega

theorem bracketContent_length {p : List Char} {n : Bool} {c a : List Char}
    (h : bracketContent p = some (n, c, a)) : a.length ≤ p.length := by
  unfold bracketContent at h
  match hb : bracketBody (bracketNeg p).2 with
  | none => rw [hb] at h; simp at h
  | some (c₀, a₀) =>
      rw [hb] at h
      simp only [Option.map_some', Option.some.injEq, Prod.mk.injEq] at h
      obtain ⟨hn, hc, ha⟩ := h
      subst ha
      have h₁ := bracketBody_length hb
      have h₂ := bracketNeg_length p
      omega

/-- Membership of a character in the body of a class, with `a-b` ranges. -/
def bracketHas : List Char → Char → Bool
  | a :: '-' :: b :: rest, c =>
      (decide (a.toNat ≤ c.toNat) && decide (c.toNat ≤ b.toNat)) || bracketHas rest c
  | a :: rest, c => (a == c) || bracketHas rest c
  | [], _ => false

/-- Anchored shell-glob matching, written with explicit fuel so that it
is structurally recursive and evaluates in the kernel.  Every recursive
call strictly decreases `pattern.length + s.length`, so
`globChars` below always supplies enough fuel. -/
def globFuel : Nat → List Char → List Char → Bool
  | 0, _, _ => false
  | _ + 1, [], s => s.isEmpty
  | f + 1, a :: p, s =>
      if a = '*' then
        globFuel f p s ||
          (match s with
           | [] => false
           | _ :: s' => globFuel f (a :: p) s')
      else if a = '?' then
        match s with
        | [] => false
        | _ :: s' => globFuel f p s'
      else if a = '[' then
        match s with
        | [] => false
        | c :: s' =>
            match bracketContent p with
            | none => (c == '[') && globFuel f p s'
            | some x => (x.1 != bracketHas x.2.1 c) && globFuel f x.2.2 s'
      else
        match s with
        | [] => false
        | c :: s' => (a == c) && globFuel f p s'

theorem globFuel_congr : ∀ (f₁ f₂ : Nat) (p s : List Char),
    p.length + s.length < f₁ → p.length + s.length < f₂ →
    globFuel f₁ p s = globFuel f₂ p s := by
  intro f₁
  induction f₁ with
  | zero => intro f₂ p s h₁ _; omega
  | succ n ih =>
      intro f₂ p s h₁ h₂
      cases f₂ with
      | zero => omega
      | succ m =>
          rcases p with _ | ⟨a, p'⟩
          · simp [globFuel]
          · simp only [List.length_cons] at h₁ h₂
            by_cases ha : a = '*'
            · simp only [globFuel, if_pos ha]
              rcases s with _ | ⟨c, s'⟩
              · rw [ih m p' [] (by simp; omega) (by simp; omega)]
              · simp only [List.length_cons] at h₁ h₂
                dsimp only
                rw [ih m p' (c :: s') (by simp; omega) (by simp; omega),
                  ih m (a :: p') s' (by simp; omega) (by simp; omega)]
            · by_cases hq : a = '?'
              · simp only [globFuel, if_neg ha, if_pos hq]
                rcases s with _ | ⟨c, s'⟩
                · rfl
                · simp only [List.length_cons] at h₁ h₂
                  dsimp only
                  rw [ih m p' s' (by omega) (by omega)]
              · by_cases hb : a = '['
                · simp only [globFuel, if_neg ha, if_neg hq, if_pos hb]
                  rcases s with _ | ⟨c, s'⟩
                  · rfl
                  · simp only [List.length_cons] at h₁ h₂
                    dsimp only
                    match hbc : bracketContent p' with
                    | none =>
                        dsimp only
                        rw [ih m p' s' (by omega) (by omega)]
                    | some (ng, content, after) =>
                        have := bracketContent_length hbc
                        dsimp only
                        rw [ih m after s' (by omega) (by omega)]
                · simp only [globFuel, if_neg ha, if_neg hq, if_neg hb]
                  rcases s with _ | ⟨c, s'⟩
                  · rfl
                  · simp only [List.length_cons] at h₁ h₂
                    dsimp only
                    rw [ih m p' s' (by omega) (by omega)]

/-- Anchored shell-glob matching of a name against a pattern, the
semantics of `fnmatch.fnmatch(name, pattern)` on POSIX; by
`globFuel_congr` the fuel argument is immaterial beyond the bound
supplied here. -/
def globChars (p s : List Char) : Bool :=
  globFuel (p.length + s.length + 1) p s

/-- `fnmatch.fnmatch(name, pattern)`. -/
def fnmatchB (name pattern : String) : Bool := globChars pattern.data name.data

/-- Split a char list at `/` separators, `str.split("/")`. -/
def splitSlash : List Char → List (List Char)
  | [] => [[]]
  | c :: rest =>
      if c == '/' then [] :: splitSlash rest
      else
        match splitSlash rest with
        | g :: gs => (c :: g) :: gs
        | [] => [[c]]

/-- `rel_path.split("/")[-1]`, the basename of a `/`-separated path. -/
def lastComp (s : List Char) : List Char := (splitSlash s).getLastD []

/-- One iteration of `ArchiveService._matches_exclude`'s loop: the
pattern matches the path if it starts with `**/` and its remainder
matches the basename alone, or if it matches the whole relative path. -/
def matchesExcludePat (rel pattern : List Char) : Bool :=
  (match pattern with
   | '*' :: '*' :: '/' :: bp => globChars bp (lastComp rel)
   | _ => false) || globChars pattern rel

/-- `ArchiveService._matches_exclude(rel_path, excludes)`. -/
def matchesExclude (relPath : String) (excludes : List String) : Bool :=
  excludes.any fun p => matchesExcludePat relPath.data p.data

/-! ## The archive codec (`gda/services/archive.py`)

A directory's regular files are modelled as the association list of
`/`-separated relative paths to content tokens that `source_dir.rglob`
enumerates, in traversal order.  An archive is the list of ZIP entries
`create_zip` writes; the `zipfile` container serialises equal entry lists
to equal bytes, so entry-list equality models byte identity.
-/

/-- One ZIP member as written by `create_zip`: filename, the `date_time`
stored in its header, and its content. -/
structure ZEntry where
  filename : String
  dateTime : Nat × Nat × Nat × Nat × Nat × Nat
  content : Nat
deriving DecidableEq, Repr

/-- `FIXED_TIMESTAMP = (2020, 1, 1, 0, 0, 0)`. -/
def fixedTimestamp : Nat × Nat × Nat × Nat × Nat × Nat := (2020, 1, 1, 0, 0, 0)

/-- `ArchiveService._collect_files`: keep the regular files whose
relative path matches no exclude, sorted by relative path. -/
def collectFiles (entries : List (String × Nat)) (excludes : List String) :
    List (String × Nat) :=
  (entries.filter fun e => !matchesExclude e.1 excludes).mergeSort
    fun a b => strLe a.1 b.1

/-- `ArchiveService.create_zip`: one ZIP entry per collected file, in
sorted order, every entry carrying `FIXED_TIMESTAMP`. -/
def createZip (entries : List (String × Nat)) (excludes : List String) :
    List ZEntry :=
  (collectFiles entries excludes).map fun e => ⟨e.1, fixedTimestamp, e.2⟩

/-- Ascending sort of a string list with Python's string order. -/
def sortStrings (l : List String) : List String := l.mergeSort strLe

/-- `ArchiveService.list_zip_contents`: the sorted list of the archive's
entry names (every entry written by `create_zip` is a file entry). -/
def listZipContents (archive : List ZEntry) : List String :=
  sortStrings (archive.map (·.filename))

/-- Sorting by relative path is traversal-order independent once the
paths are distinct: any two enumerations of the same file set sort to the
same list. -/
theorem mergeSortKey_eq_of_perm {l₁ l₂ : List (String × Nat)}
    (hp : l₁.Perm l₂) (hn : (l₁.map Prod.fst).Nodup) :
    l₁.mergeSort (fun a b => strLe a.1 b.1) =
      l₂.mergeSort (fun a b => strLe a.1 b.1) := by
  have htrans : ∀ a b c : String × Nat, strLe a.1 b.1 = true →
      strLe b.1 c.1 = true → strLe a.1 c.1 = true :=
    fun a b c h₁ h₂ => strLe_trans h₁ h₂
  have htotal : ∀ a b : String × Nat, (strLe a.1 b.1 || strLe b.1 a.1) = true := by
    intro a b
    rcases strLe_total a.1 b.1 with h | h <;> simp [h]
  have hs₁ := List.sorted_mergeSort htrans htotal l₁
  have hs₂ := List.sorted_mergeSort htrans htotal l₂
  have hperm : (l₁.mergeSort (fun a b => strLe a.1 b.1)).Perm
      (l₂.mergeSort (fun a b => strLe a.1 b.1)) :=
    ((List.mergeSort_perm l₁ _).trans hp).trans (List.mergeSort_perm l₂ _).symm
  have hn₁ : ((l₁.mergeSort (fun a b => strLe a.1 b.1)).map Prod.fst).Nodup :=
    (hn.perm ((List.mergeSort_perm l₁ _).map Prod.fst).symm)
  have hn₂ : ((l₂.mergeSort (fun a b => strLe a.1 b.1)).map Prod.fst).Nodup :=
    hn₁.perm (hperm.map Prod.fst)
  have hstrict : ∀ {m : List (String × Nat)},
      List.Sorted (fun a b : String × Nat => strLe a.1 b.1 = true) m →
      (m.map Prod.fst).Nodup →
      List.Sorted (fun a b : String × Nat => strLt a.1 b.1 = true) m := by
    intro m hs hnd
    have hne : m.Pairwise fun a b : String × Nat => a.1 ≠ b.1 :=
      (List.pairwise_map).1 hnd
    exact (hs.and hne).imp fun {a b} h => by
      rcases strLt_connex h.2 with hlt | hlt
      · exact hlt
      · exact absurd hlt (by
          have := h.1
          simp only [strLe, Bool.not_eq_true'] at this
          simp [this])
  haveI : IsAntisymm (String × Nat) (fun a b => strLt a.1 b.1 = true) :=
    ⟨fun a b h₁ h₂ => absurd h₂ (by simp [strLt_asymm h₁])⟩
  exact List.eq_of_perm_of_sorted hperm (hstrict hs₁ hn₁) (hstrict hs₂ hn₂)

theorem collectFiles_eq_of_perm {l₁ l₂ : List (String × Nat)} {excludes : List String}
    (hp : l₁.Perm l₂) (hn : (l₁.map Prod.fst).Nodup) :
    collectFiles l₁ excludes = collectFiles l₂ excludes := by
  unfold collectFiles
  refine mergeSortKey_eq_of_perm (hp.filter _) ?_
  exact ((List.filter_sublist l₁).map Prod.fst).nodup hn

theorem mem_collectFiles_not_excluded {enum : List (String × Nat)}
    {excludes : List String} {e : String × Nat}
    (h : e ∈ collectFiles enum excludes) : matchesExclude e.1 excludes = false := by
  unfold collectFiles at h
  have h' := ((List.mergeSort_perm _ _).mem_iff).1 h
  have := (List.mem_filter.1 h').2
  simpa using this

/-- Claim C1 — Packing is deterministic: the archive produced by
`create_zip` is a function of the file SET alone.  Two runs that
enumerate the same relative-path/content pairs, in any traversal order,
on any machine, produce the identical entry list (hence byte-identical
artifact bytes and, for every hash function — in particular SHA-256 —
the same digest), and every entry carries the constant `FIXED_TIMESTAMP`,
so the output is independent of the time of the run. -/
theorem create_zip_deterministic (enum₁ enum₂ : List (String × Nat))
    (excludes : List String)
    (hperm : enum₁.Perm enum₂) (hnodup : (enum₁.map Prod.fst).Nodup) :
    createZip enum₁ excludes = createZip enum₂ excludes ∧
    (∀ hash : List ZEntry → String,
        hash (createZip enum₁ excludes) = hash (createZip enum₂ excludes)) ∧
    (∀ e ∈ createZip enum₁ excludes, e.dateTime = fixedTimestamp) := by
  have hcf : collectFiles enum₁ excludes = collectFiles enum₂ excludes :=
    collectFiles_eq_of_perm hperm hnodup
  refine ⟨by unfold createZip; rw [hcf], fun hash => by unfold createZip; rw [hcf], ?_⟩
  intro e he
  unfold createZip at he
  obtain ⟨x, _, hx⟩ := List.mem_map.1 he
  simp [← hx]

/-- Witness for C1 at a concrete pair of enumerations of the same
two-file set. -/
theorem create_zip_deterministic_witness :
    ([("b.txt", 2), ("a.txt", 1)] : List (String × Nat)).Perm
        [("a.txt", 1), ("b.txt", 2)] ∧
    ((([("b.txt", 2), ("a.txt", 1)] : List (String × Nat)).map Prod.fst).Nodup) ∧
    createZip [("b.txt", 2), ("a.txt", 1)] ["**/.DS_Store"] =
      createZip [("a.txt", 1), ("b.txt", 2)] ["**/.DS_Store"] :=
  ⟨by decide, by decide,
    (create_zip_deterministic [("b.txt", 2), ("a.txt", 1)]
      [("a.txt", 1), ("b.txt", 2)] ["**/.DS_Store"] (by decide) (by decide)).1⟩

/-- Claim C5 — Exclude correctness: a file whose `/`-separated relative
path matches any exclude glob (`_matches_exclude`, with the `**/`
basename rule and shell-glob semantics for the rest) never appears among
the packed artifact's entries nor in its content listing. -/
theorem exclude_correctness (enum : List (String × Nat)) (excludes : List String)
    (relPath : String) (hmatch : matchesExclude relPath excludes = true) :
    (∀ e ∈ createZip enum excludes, e.filename ≠ relPath) ∧
    relPath ∉ listZipContents (createZip enum excludes) := by
  have hmem : ∀ e ∈ createZip enum excludes, e.filename ≠ relPath := by
    intro e he heq
    unfold createZip at he
    obtain ⟨x, hx, hxe⟩ := List.mem_map.1 he
    have hne := mem_collectFiles_not_excluded hx
    rw [show x.1 = relPath from by rw [← heq, ← hxe]] at hne
    rw [hmatch] at hne
    simp at hne
  refine ⟨hmem, ?_⟩
  intro hmemL
  unfold listZipContents sortStrings at hmemL
  have h' := ((List.mergeSort_perm _ _).mem_iff).1 hmemL
  obtain ⟨e, he, hee⟩ := List.mem_map.1 h'
  exact hmem e he hee

/-- Witness for C5: `a/.DS_Store` matches `**/.DS_Store` and is absent
from the archive of a directory that contains it. -/
theorem exclude_correctness_witness :
    matchesExclude "a/.DS_Store" ["**/.DS_Store"] = true ∧
    "a/.DS_Store" ∉ listZipContents
      (createZip [("a/.DS_Store", 1), ("keep.txt", 2)] ["**/.DS_Store"]) :=
  ⟨by decide,
    (exclude_correctness [("a/.DS_Store", 1), ("keep.txt", 2)] ["**/.DS_Store"]
      "a/.DS_Store" (by decide)).2⟩

/-! ## Filename decoding on extraction

`extract_zip` post-processes each entry name with
`info.filename.encode("cp437").decode("utf-8")`, falling back to
`decode("cp932")` and finally to the raw `info.filename`.  Python's
`zipfile` itself stores and returns entry-name strings losslessly (ASCII
names are stored raw, others as flagged UTF-8), so the stored name in our
archive model is the `create_zip`-time relative path and only this
post-processing can change it.
-/

/-- The cp437 code page above 0x7F: byte value to Unicode code point
(below 0x80 the page coincides with ASCII). -/
def cp437Hi : Nat → Nat
  | 0x80 => 0x00C7
  | 0x81 => 0x00FC
  | 0x82 => 0x00E9
  | 0x83 => 0x00E2
  | 0x84 => 0x00E4
  | 0x85 => 0x00E0
  | 0x86 => 0x00E5
  | 0x87 => 0x00E7
  | 0x88 => 0x00EA
  | 0x89 => 0x00EB
  | 0x8A => 0x00E8
  | 0x8B => 0x00EF
  | 0x8C => 0x00EE
  | 0x8D => 0x00EC
  | 0x8E => 0x00C4
  | 0x8F => 0x00C5
  | 0x90 => 0x00C9
  | 0x91 => 0x00E6
  | 0x92 => 0x00C6
  | 0x93 => 0x00F4
  | 0x94 => 0x00F6
  | 0x95 => 0x00F2
  | 0x96 => 0x00FB
  | 0x97 => 0x00F9
  | 0x98 => 0x00FF
  | 0x99 => 0x00D6
  | 0x9A => 0x00DC
  | 0x9B => 0x00A2
  | 0x9C => 0x00A3
  | 0x9D => 0x00A5
  | 0x9E => 0x20A7
  | 0x9F => 0x0192
  | 0xA0 => 0x00E1
  | 0xA1 => 0x00ED
  | 0xA2 => 0x00F3
  | 0xA3 => 0x00FA
  | 0xA4 => 0x00F1
  | 0xA5 => 0x00D1
  | 0xA6 => 0x00AA
  | 0xA7 => 0x00BA
  | 0xA8 => 0x00BF
  | 0xA9 => 0x2310
  | 0xAA => 0x00AC
  | 0xAB => 0x00BD
  | 0xAC => 0x00BC
  | 0xAD => 0x00A1
  | 0xAE => 0x00AB
  | 0xAF => 0x00BB
  | 0xB0 => 0x2591
  | 0xB1 => 0x2592
  | 0xB2 => 0x2593
  | 0xB3 => 0x2502
  | 0xB4 => 0x2524
  | 0xB5 => 0x2561
  | 0xB6 => 0x2562
  | 0xB7 => 0x2556
  | 0xB8 => 0x2555
  | 0xB9 => 0x2563
  | 0xBA => 0x2551
  | 0xBB => 0x2557
  | 0xBC => 0x255D
  | 0xBD => 0x255C
  | 0xBE => 0x255B
  | 0xBF => 0x2510
  | 0xC0 => 0x2514
  | 0xC1 => 0x2534
  | 0xC2 => 0x252C
  | 0xC3 => 0x251C
  | 0xC4 => 0x2500
  | 0xC5 => 0x253C
  | 0xC6 => 0x255E
  | 0xC7 => 0x255F
  | 0xC8 => 0x255A
  | 0xC9 => 0x2554
  | 0xCA => 0x2569
  | 0xCB => 0x2566
  | 0xCC => 0x2560
  | 0xCD => 0x2550
  | 0xCE => 0x256C
  | 0xCF => 0x2567
  | 0xD0 => 0x2568
  | 0xD1 => 0x2564
  | 0xD2 => 0x2565
  | 0xD3 => 0x2559
  | 0xD4 => 0x2558
  | 0xD5 => 0x2552
  | 0xD6 => 0x2553
  | 0xD7 => 0x256B
  | 0xD8 => 0x256A
  | 0xD9 => 0x2518
  | 0xDA => 0x250C
  | 0xDB => 0x2588
  | 0xDC => 0x2584
  | 0xDD => 0x258C
  | 0xDE => 0x2590
  | 0xDF => 0x2580
  | 0xE0 => 0x03B1
  | 0xE1 => 0x00DF
  | 0xE2 => 0x0393
  | 0xE3 => 0x03C0
  | 0xE4 => 0x03A3
  | 0xE5 => 0x03C3
  | 0xE6 => 0x00B5
  | 0xE7 => 0x03C4
  | 0xE8 => 0x03A6
  | 0xE9 => 0x0398
  | 0xEA => 0x03A9
  | 0xEB => 0x03B4
  | 0xEC => 0x221E
  | 0xED => 0x03C6
  | 0xEE => 0x03B5
  | 0xEF => 0x2229
  | 0xF0 => 0x2261
  | 0xF1 => 0x00B1
  | 0xF2 => 0x2265
  | 0xF3 => 0x2264
  | 0xF4 => 0x2320
  | 0xF5 => 0x2321
  | 0xF6 => 0x00F7
  | 0xF7 => 0x2248
  | 0xF8 => 0x00B0
  | 0xF9 => 0x2219
  | 0xFA => 0x00B7
  | 0xFB => 0x221A
  | 0xFC => 0x207F
  | 0xFD => 0x00B2
  | 0xFE => 0x25A0
  | 0xFF => 0x00A0
  | _ => 0

/-- Encode one character to cp437, `str.encode("cp437")` per character:
ASCII maps to itself, other characters to the unique high byte mapping to
them, if any. -/
def encodeCp437Char (c : Char) : Option Nat :=
  if c.toNat < 128 then some c.toNat
  else ((List.range 128).find? fun i => cp437Hi (128 + i) == c.toNat).map (128 + .)

/-- `str.encode("cp437")`: fails (raising `UnicodeEncodeError`) iff some
character has no cp437 byte. -/
def encodeCp437 : List Char → Option (List Nat)
  | [] => some []
  | c :: cs =>
      match encodeCp437Char c, encodeCp437 cs with
      | some b, some bs => some (b :: bs)
      | _, _ => none

/-- `bytes.decode("utf-8")`, strict: rejects overlong forms, surrogates
and code points beyond U+10FFFF, as Python does. -/
def utf8Decode : List Nat → Option (List Char)
  | [] => some []
  | b :: bs =>
      if b < 0x80 then
        (utf8Decode bs).map (Char.ofNat b :: .)
      else if 0xC2 <= b && b <= 0xDF then
        match bs with
        | b1 :: rest =>
            if 0x80 <= b1 && b1 <= 0xBF then
              (utf8Decode rest).map (Char.ofNat ((b - 0xC0) * 64 + (b1 - 0x80)) :: .)
            else none
        | [] => none
      else if 0xE0 <= b && b <= 0xEF then
        match bs with
        | b1 :: b2 :: rest =>
            let lo1 := if b == 0xE0 then 0xA0 else 0x80
            let hi1 := if b == 0xED then 0x9F else 0xBF
            if lo1 <= b1 && b1 <= hi1 && 0x80 <= b2 && b2 <= 0xBF then
              (utf8Decode rest).map
                (Char.ofNat ((b - 0xE0) * 4096 + (b1 - 0x80) * 64 + (b2 - 0x80)) :: .)
            else none
        | _ => none
      else if 0xF0 <= b && b <= 0xF4 then
        match bs with
        | b1 :: b2 :: b3 :: rest =>
            let lo1 := if b == 0xF0 then 0x90 else 0x80
            let hi1 := if b == 0xF4 then 0x8F else 0xBF
            if lo1 <= b1 && b1 <= hi1 && 0x80 <= b2 && b2 <= 0xBF
                && 0x80 <= b3 && b3 <= 0xBF then
              (utf8Decode rest).map
                (Char.ofNat ((b - 0xF0) * 262144 + (b1 - 0x80) * 4096
                  + (b2 - 0x80) * 64 + (b3 - 0x80)) :: .)
            else none
        | _ => none
      else none

/-- The key side of the cp932 double-byte table: the i-th character of
these strings has code point `lead * 256 + trail` for the i-th defined
lead/trail pair of the codec (leads `0x81`-`0x9F` and `0xE0`-`0xFC`),
in increasing order. -/
def cp932KeyChunks : List String := [
  "腀腁腂腃腄腅腆腇腈腉腊腋腌腍腎腏腐腑腒腓腔腕腖腗腘腙腚腛腜腝腞腟腠腡腢腣腤腥腦腧腨腩腪腫腬腭腮腯腰腱腲腳腴腵腶腷腸腹腺腻腼腽腾膀膁膂膃膄膅膆膇膈膉膊膋膌膍膎膏膐膑膒膓膔膕膖膗膘膙膚膛膜膝膞膟膠膡膢膣膤膥膦膧膨膩膪膫膬膸膹膺膻膼膽膾膿臈臉臊臋臌臍臎臚臛臜臝臞臟臠臡臢臣臤臥臦臧臨臰臱臲至致臵臶臷臼艏艐艑艒艓艔艕艖艗艘艠艡艢艣艤艥艦艧艨艩艪艫艬艭艮良艰艱色艳艴艵艶艷艸艹芁节芃芄芅芆芇芈芉芊芋芌芍芎芏芐芑芒芓芔芕芖芗芘芙芚芟芠芡芢芣芤芥芦芧芨芩芪芫芬芭芮芯芰花芲芳芴芵芶芷芸芹芺芻芼芽芾芿苀苁苂苃苄苅苆苇苈苉苊苋苌苍苎苏苐苑苒苓苔苕苖苗苘苙苚苛苜苝苞苟苠苡苢苣苤若苦苧苨苩苪苫苬苭苮苯苰英荀荁荂荃荄荅荆荇荈草荊荋荌荍荎荏荐荑荒荓荔荕荖荗荘荙荚荛荜荝荞荟荠荡荢荣荤荥荦荧荨荩荪荫荬荭荮药荰荱荲荳荴荵荶荷荸荹荺荻荼荽荾莀莁莂莃莄莅莆莇莈莉莊莋莌莍莎莏莐莑莒莓莔莕莖莟莠莡莢莣莤莥莦莧莨莩莪莫莬莭莮莯莰莱莲莳莴莵莶莿菀菁菂菃菄菅菆菇菈菉菊菋菌菍菎菏菐菑菒菓菔菕菖葀葁葂葃葄葅葆葇葈葉葊葋葌葍葎葏葐葑葒葓葔葕葖著葘葙葚葛葜葝葞葟葠葰葱葲葳葴葵葶葷葸葹葺葻葼葽葾蒀蒁蒂蒃蒄蒅蒆蒇蒈蒉蒊蒋蒌蒍蒎蒏蒐蒑蒟蒠蒡蒢蒣蒤蒥蒦蒧蒨蒩蒪蒫蒬蒭蒮蒯蒰蒱蒲蒳蒴蒵蒶蒷蒸蒹蒺蒻蒼蒽蒾蝀蝁蝂蝃蝄蝅蝆蝇蝈蝉蝊蝋蝌蝍蝎蝏蝐蝑蝒蝓蝔蝕蝖蝗蝘蝙蝚蝛蝜蝝蝟蝠蝡蝢蝣蝤蝥蝦蝧蝨蝩蝪蝫蝬蝭蝮蝯蝰蝱蝲蝳蝴蝵蝾螀螁螂螃螄螅螆螇螈螉螊螋螌融螎螏螐螑螒螓螔螕螖螗螘螙螚螛螜袟袠袡袢袣袤袥袦袧袨袩袪被袬袭袮袯袰袱袲袳袴袵袶袷袸袹袺袻袼袽袾袿裀裁裂裃裄装裆裇裈裉裊裋裌裍裎裏裐裑裒裓裔裕裖裗裘裙裚裛補裝裞裟裠裡裢裣裤裥裦裧裨裩裪裫裬裭裮裯裰裱裲裳裴裵裶裷裸裹裺裻裼襀襁襂襃襄襅襆襇襈襉襊襋襌襍襎襏襐襑襒襓襔襕襖襗襘襙襚襛襜襝襞襟襠襡襢襣襤襥襦襧襨襩襪襫襬襭襮襯襰襱襲襳襴襵襶襷襸襹襺襻襼襽襾覀要覂覃覄覅覆覇覈覉覊見覌覍覎規覐覑覒覓覔覕視覗覘覙覚覛覜覝覞覟覠覡覢覣覤覥覦覧覨覩親覫覬覭覮覯覰覱覲観覴覵覶覷覸覹覺覻覼覽覾覿觀见观觃规觅视觇览觉觊觋觌觍觎觏觐觑角觓觔觕觖觗觘觙觚觛觜觝觞觟觠觡觢解觤觥触觧觨觩觪觫觬觭觮觯觰觱觲觳觴觵觶觷觸觹觺觻觼詀詁詂詃詄詅詆詇詈詉詊詋詌詍詎詏詐詑詒詓詔評詖詗詘詙詚詛詜詝詞詟詠詡詢詣詤詥試詧詨詩詪詫詬詭詮詯詰話該詳詴詵詶詷詸詹詺詻詼詽詾誀誁誂誃誄誅誆誇誈誉誊誋誌認誎誏誐誑誒誓誔誕誖誗誘誙誚誛誜誝語誟誠誡誢誣誤誥誦誧誨誩說誫説読誮誯誰誱課誳誴誵誶誷誸誹誺誻誼誽誾調諀諁諂諃諄諅諆談諈諉諊請諌諍諎諏諐諑諒諓諔諕論諗諘諙諚諛諜諝諞諟諠諡諢諣諤諥諦諧諨諩諪諫諬諭諮諯諰諱諲諳諴諵諶諷諸諹諺諻諼譀譁譂譃譄譅譆譇譈證譊譋譌譍譎譏譐譑譒譓譔譕譖譗識譙譚譛譜譝譞譟譠譡譢譣譤譥警譧譨譩譪譫譬譭譮譯議譱譲譳譴譵譶護譸譹譺譻譼譽譾讀讁讂讃讄讅讆讇讈讉變讋讌讍讎讏讐讑讒讓讔讕讖讗讘讙讚讛讜讝讞讟讠计订讣认讥讦讧讨让讪讫讬训议讯记讱讲讳讴讵讶讷许讹论讻讼",
  "讽设访诀证诂诃评诅识诇诈诉诊诋诌词诎诏诐译诒诓诔试诖诗诘诙诚诛诜话诞诟诠诡询诣诤该详诧诨诩诪诫诬语诮误诰诱诲诳说诵诶请诸诹诺读诼豀豁豂豃豄豅豆豇豈豉豊豋豌豍豎豏豐豑豒豓豔豕豖豗豘豙豚豛豜豝豞豟豠象豢豣豤豥豦豧豨豩豪豫豬豭豮豯豰豱豲豳豴豵豶豷豸豹豺豻豼豽豾貀貁貂貃貄貅貆貇貈貉貊貋貌貍貎貏貐貑貒貓貔貕貖貗貘貙貚貛貜貝貞貟負財貢貣貤貥貦貧貨販貪貫責貭貮貯貰貱貲貳貴貵貶買貸貹貺費貼貽貾貿賀賁賂賃賄賅賆資賈賉賊賋賌賍賎賏賐賑賒賓賔賕賖賗賘賙賚賛賜賝賞賟賠賡賢賣賤賥賦賧賨賩質賫賬賭賮賯賰賱賲賳賴賵賶賷賸賹賺賻購赀赁赂赃资赅赆赇赈赉赊赋赌赍赎赏赐赑赒赓赔赕赖赗赘赙赚赛赜赝赞赟赠赡赢赣赤赥赦赧赨赩赪赫赬赭赮赯走赱赲赳赴赵赶起赸赹赺赻赼赽赾趀趁趂趃趄超趆趇趈趉越趋趌趍趎趏趐趑趒趓趔趕趖趗趘趙趚趛趜趝趞趟趠趡趢趣趤趥趦趧趨趩趪趫趬趭趮趯趰趱趲足趴趵趶趷趸趹趺趻趼趽趾趿跀跁跂跃跄跅跆跇跈跉跊跋跌跍跎跏跐跑跒跓跔跕跖跗跘跙跚跛跜距跞跟跠跡跢跣跤跥跦跧跨跩跪跫跬跭跮路跰跱跲跳跴践跶跷跸跹跺跻跼蹀蹁蹂蹃蹄蹅蹆蹇蹈蹉蹊蹋蹌蹍蹎蹏蹐蹑蹒蹓蹔蹕蹖蹗蹘蹙蹚蹛蹜蹝蹞蹟蹠蹡蹢蹣蹤蹥蹦蹧蹨蹩蹪蹫蹬蹭蹮蹯蹰蹱蹲蹳蹴蹵蹶蹷蹸蹹蹺蹻蹼蹽蹾躀躁躂躃躄躅躆躇躈躉躊躋躌躍躎躏躐躑躒躓躔躕躖躗躘躙躚躛躜躝躞躟躠躡躢躣躤躥躦躧躨躩躪身躬躭躮躯躰躱躲躳躴躵躶躷躸躹躺躻躼躽躾躿軀軁軂軃軄軅軆軇軈軉車軋軌軍軎軏軐軑軒軓軔軕軖軗軘軙軚軛軜軝軞軟軠軡転軣軤軥軦軧軨軩軪軫軬軭軮軯軰軱軲軳軴軵軶軷軸軹軺軻軼轀轁轂轃轄轅轆轇轈轉轊轋轌轍轎轏轐轑轒轓轔轕轖轗轘轙轚轛轜轝轞轟轠轡轢轣轤轥车轧轨轩轪轫转轭轮软轰轱轲轳轴轵轶轷轸轹轺轻轼载轾辀辁辂较辄辅辆辇辈辉辊辋辌辍辎辏辐辑辒输辔辕辖辗辘辙辚辛辜辝辞辟辠辡辢辣辤辥辦辧辨辩辪辫辬辭辮辯辰辱農辳辴辵辶辷辸边辺辻込辽达辿迀迁迂迃迄迅迆过迈迉迊迋迌迍迎迏运近迒迓返迕迖迗还这迚进远违连迟迠迡迢迣迤迥迦迧迨迩迪迫迬迭迮迯述迱迲迳迴迵迶迷迸迹迺迻迼遀遁遂遃遄遅遆遇遈遉遊運遌遍過遏遐遑遒道達違遖遗遘遙遚遛遜遝遞遟遠遡遢遣遤遥遦遧遨適遪遫遬遭遮遯遰遱遲遳遴遵遶遷選遹遺遻遼遽遾邀邁邂邃還邅邆邇邈邉邊邋邌邍邎邏邐邑邒邓邔邕邖邗邘邙邚邛邜邝邞邟邠邡邢那邤邥邦邧邨邩邪邫邬邭邮邯邰邱邲邳邴邵邶邷邸邹邺邻邼邽邾邿郀郁郂郃郄郅郆郇郈郉郊郋郌郍郎郏郐郑郒郓郔郕郖郗郘郙郚郛郜郝郞郟郠郡郢郣郤郥郦郧部郩郪郫郬郭郮郯郰郱郲郳郴郵郶郷郸郹郺郻郼酀酁酂酃酄酅酆酇酈酉酊酋酌配酎酏酐酑酒酓酔酕酖酗酘酙酚酛酜酝酞酟酠酡酢酣酤酥酦酧酨酩酪酫酬酭酮酯酰酱酲酳酴酵酶酷酸酹酺酻酼酽酾醀醁醂醃醄醅醆醇醈醉醊醋醌醍醎醏醐醑醒醓醔醕醖醗醘醙醚醛醜醝醞醟醠醡醢醣醤醥醦醧醨醩醪醫醬醭醮醯醰醱醲醳醴醵醶醷醸醹醺醻醼醽醾醿釀釁釂釃釄釅釆采釈釉释釋里重野量釐金釒釓釔釕釖釗釘釙釚釛釜針釞釟釠釡釢釣釤釥釦釧釨釩釪釫釬釭釮釯釰釱釲釳釴釵釶釷釸釹釺釻釼鉀鉁鉂鉃鉄鉅鉆鉇鉈",
  "鉉鉊鉋鉌鉍鉎鉏鉐鉑鉒鉓鉔鉕鉖鉗鉘鉙鉚鉛鉜鉝鉞鉟鉠鉡鉢鉣鉤鉥鉦鉧鉨鉩鉪鉫鉬鉭鉮鉯鉰鉱鉲鉳鉴鉵鉶鉷鉸鉹鉺鉻鉼鉽鉾銀銁銂銃銄銅銆銇銈銉銊銋銌銍銎銏銐銑銒銓銔銕銖銗銘銙銚銛銜銝銞銟銠銡銢銣銤銥銦銧銨銩銪銫銬銭銮銯銰銱銲銳銴銵銶銷銸銹銺銻銼銽銾銿鋀鋁鋂鋃鋄鋅鋆鋇鋈鋉鋊鋋鋌鋍鋎鋏鋐鋑鋒鋓鋔鋕鋖鋗鋘鋙鋚鋛鋜鋝鋞鋟鋠鋡鋢鋣鋤鋥鋦鋧鋨鋩鋪鋫鋬鋭鋮鋯鋰鋱鋲鋳鋴鋵鋶鋷鋸鋹鋺鋻鋼鍀鍁鍂鍃鍄鍅鍆鍇鍈鍉鍊鍋鍌鍍鍎鍏鍐鍑鍒鍓鍔鍕鍖鍗鍘鍙鍚鍛鍜鍝鍞鍟鍠鍡鍢鍣鍤鍥鍦鍧鍨鍩鍪鍫鍬鍭鍮鍯鍰鍱鍲鍳鍴鍵鍶鍷鍸鍹鍺鍻鍼鍽鍾鎀鎁鎂鎃鎄鎅鎆鎇鎈鎉鎊鎋鎌鎍鎎鎏鎐鎑鎒鎓鎔鎕鎖鎗鎘鎙鎚鎛鎜鎝鎞鎟鎠鎡鎢鎣鎤鎥鎦鎧鎨鎩鎪鎫鎬鎭鎮鎯鎰鎱鎲鎳鎴鎵鎶鎷鎸鎹鎺鎻鎼鎽鎾鎿鏀鏁鏂鏃鏄鏅鏆鏇鏈鏉鏊鏋鏌鏍鏎鏏鏐鏑鏒鏓鏔鏕鏖鏗鏘鏙鏚鏛鏜鏝鏞鏟鏠鏡鏢鏣鏤鏥鏦鏧鏨鏩鏪鏫鏬鏭鏮鏯鏰鏱鏲鏳鏴鏵鏶鏷鏸鏹鏺鏻鏼鑀鑁鑂鑃鑄鑅鑆鑇鑈鑉鑊鑋鑌鑍鑎鑏鑐鑑鑒鑓鑔鑕鑖鑗鑘鑙鑚鑛鑜鑝鑞鑟鑠鑡鑢鑣鑤鑥鑦鑧鑨鑩鑪鑫鑬鑭鑮鑯鑰鑱鑲鑳鑴鑵鑶鑷鑸鑹鑺鑻鑼鑽鑾钀钁钂钃钄钅钆钇针钉钊钋钌钍钎钏钐钑钒钓钔钕钖钗钘钙钚钛钜钝钞钟钠钡钢钣钤钥钦钧钨钩钪钫钬钭钮钯钰钱钲钳钴钵钶钷钸钹钺钻钼钽钾钿铀铁铂铃铄铅铆铇铈铉铊铋铌铍铎铏铐铑铒铓铔铕铖铗铘铙铚铛铜铝铞铟铠铡铢铣铤铥铦铧铨铩铪铫铬铭铮铯铰铱铲铳铴铵银铷铸铹铺铻铼镀镁镂镃镄镅镆镇镈镉镊镋镌镍镎镏镐镑镒镓镔镕镖镗镘镙镚镛镜镝镞镟镠镡镢镣镤镥镦镧镨镩镪镫镬镭镮镯镰镱镲镳镴镵镶長镸镹镺镻镼镽镾門閁閂閃閄閅閆閇閈閉閊開閌閍閎閏閐閑閒間閔閕閖閗閘閙閚閛閜閝閞閟閠閡関閣閤閥閦閧閨閩閪閫閬閭閮閯閰閱閲閳閴閵閶閷閸閹閺閻閼閽閾閿闀闁闂闃闄闅闆闇闈闉闊闋闌闍闎闏闐闑闒闓闔闕闖闗闘闙闚闛關闝闞闟闠闡闢闣闤闥闦闧门闩闪闫闬闭问闯闰闱闲闳间闵闶闷闸闹闺闻闼陀陁陂陃附际陆陇陈陉陊陋陌降陎陏限陑陒陓陔陕陖陗陘陙陚陛陜陝陞陟陠陡院陣除陥陦陧陨险陪陫陬陭陮陯陰陱陲陳陴陵陶陷陸陹険陻陼陽陾隀隁隂隃隄隅隆隇隈隉隊隋隌隍階随隐隑隒隓隔隕隖隗隘隙隚際障隝隞隟隠隡隢隣隤隥隦隧隨隩險隫隬隭隮隯隰隱隲隳隴隵隶隷隸隹隺隻隼隽难隿雀雁雂雃雄雅集雇雈雉雊雋雌雍雎雏雐雑雒雓雔雕雖雗雘雙雚雛雜雝雞雟雠雡離難雤雥雦雧雨雩雪雫雬雭雮雯雰雱雲雳雴雵零雷雸雹雺電雼靀靁靂靃靄靅靆靇靈靉靊靋靌靍靎靏靐靑青靓靔靕靖靗靘静靚靛靜靝非靟靠靡面靣靤靥靦靧靨革靪靫靬靭靮靯靰靱靲靳靴靵靶靷靸靹靺靻靼靽靾鞀鞁鞂鞃鞄鞅鞆鞇鞈鞉鞊鞋鞌鞍鞎鞏鞐鞑鞒鞓鞔鞕鞖鞗鞘鞙鞚鞛鞜鞝鞞鞟鞠鞡鞢鞣鞤鞥鞦鞧鞨鞩鞪鞫鞬鞭鞮鞯鞰鞱鞲鞳鞴鞵鞶鞷鞸鞹鞺鞻鞼鞽鞾鞿韀韁韂韃韄韅韆韇韈韉韊韋韌韍韎韏韐韑韒韓韔韕韖韗韘韙韚韛韜韝韞韟韠韡韢韣韤韥韦韧韨韩韪韫韬韭韮韯韰韱韲音韴韵韶韷韸韹韺韻韼顀顁顂顃顄顅顆顇顈顉顊顋題額顎顏顐顑顒顓顔顕顖顗願顙顚顛顜顝類顟顠顡顢顣顤顥顦顧顨顩顪顫顬顭顮顯顰顱顲颟颠颡颢颣颤颥颦颧風颩颪颫颬颭颮颯颰颱颲颳颴颵颶颷颸颹颺颻颼颽",
  "颾颿飀飁飂飃飄飅飆飇飈飉飊飋飌飍风飏飐飑飒飓飔飕飖飗飘飙飚飛飜飝飞食飠飡飢飣飤飥飦飧飨飩飪飫飬飭飮飯飰飱飲飳飴飵飶飷飸飹飺飻飼饀饁饂饃饄饅饆饇饈饉饊饋饌饍饎饏饐饑饒饓饔饕饖饗饘饙饚饛饜饝饞饟饠饡饢饣饤饥饦饧饨饩饪饫饬饭饮饯饰饱饲饳饴饵饶饷饸饹饺饻饼饽饾馀馁馂馃馄馅馆馇馈馉馊馋馌馍馎馏馐馑馒馓馔馕首馗馘香馚馛馜馝馞馟馠馡馢馣馤馥馦馧馨馩馪馫馬馭馮馯馰馱馲馳馴馵馶馷馸馹馺馻馼馽馾馿駀駁駂駃駄駅駆駇駈駉駊駋駌駍駎駏駐駑駒駓駔駕駖駗駘駙駚駛駜駝駞駟駠駡駢駣駤駥駦駧駨駩駪駫駬駭駮駯駰駱駲駳駴駵駶駷駸駹駺駻駼驀驁驂驃驄驅驆驇驈驉驊驋驌驍驎驏驐驑驒驓驔驕驖驗驘驙驚驛驜驝驞驟驠驡驢驣驤驥驦驧驨驩驪驫马驭驮驯驰驱驲驳驴驵驶驷驸驹驺驻驼驽驾骀骁骂骃骄骅骆骇骈骉骊骋验骍骎骏骐骑骒骓骔骕骖骗骘骙骚骛骜骝骞骟骠骡骢骣骤骥骦骧骨骩骪骫骬骭骮骯骰骱骲骳骴骵骶骷骸骹骺骻骼骽骾骿髀髁髂髃髄髅髆髇髈髉髊髋髌髍髎髏髐髑髒髓體髕髖髗高髙髚髛髜髝髞髟髠髡髢髣髤髥髦髧髨髩髪髫髬髭髮髯髰髱髲髳髴髵髶髷髸髹髺髻髼魀魁魂魃魄魅魆魇魈魉魊魋魌魍魎魏魐魑魒魓魔魕魖魗魘魙魚魛魜魝魞魟魠魡魢魣魤魥魦魧魨魩魪魫魬魭魮魯魰魱魲魳魴魵魶魷魸魹魺魻魼魽魾鮀鮁鮂鮃鮄鮅鮆鮇鮈鮉鮊鮋鮌鮍鮎鮏鮐鮑鮒鮓鮔鮕鮖鮗鮘鮙鮚鮛鮜鮝鮞鮟鮠鮡鮢鮣鮤鮥鮦鮧鮨鮩鮪鮫鮬鮭鮮鮯鮰鮱鮲鮳鮴鮵鮶鮷鮸鮹鮺鮻鮼鮽鮾鮿鯀鯁鯂鯃鯄鯅鯆鯇鯈鯉鯊鯋鯌鯍鯎鯏鯐鯑鯒鯓鯔鯕鯖鯗鯘鯙鯚鯛鯜鯝鯞鯟鯠鯡鯢鯣鯤鯥鯦鯧鯨鯩鯪鯫鯬鯭鯮鯯鯰鯱鯲鯳鯴鯵鯶鯷鯸鯹鯺鯻鯼鱀鱁鱂鱃鱄鱅鱆鱇鱈鱉鱊鱋鱌鱍鱎鱏鱐鱑鱒鱓鱔鱕鱖鱗鱘鱙鱚鱛鱜鱝鱞鱟鱠鱡鱢鱣鱤鱥鱦鱧鱨鱩鱪鱫鱬鱭鱮鱯鱰鱱鱲鱳鱴鱵鱶鱷鱸鱹鱺鱻鱼鱽鱾鲀鲁鲂鲃鲄鲅鲆鲇鲈鲉鲊鲋鲌鲍鲎鲏鲐鲑鲒鲓鲔鲕鲖鲗鲘鲙鲚鲛鲜鲝鲞鲟鲠鲡鲢鲣鲤鲥鲦鲧鲨鲩鲪鲫鲬鲭鲮鲯鲰鲱鲲鲳鲴鲵鲶鲷鲸鲹鲺鲻鲼鲽鲾鲿鳀鳁鳂鳃鳄鳅鳆鳇鳈鳉鳊鳋鳌鳍鳎鳏鳐鳑鳒鳓鳔鳕鳖鳗鳘鳙鳚鳛鳜鳝鳞鳟鳠鳡鳢鳣鳤鳥鳦鳧鳨鳩鳪鳫鳬鳭鳮鳯鳰鳱鳲鳳鳴鳵鳶鳷鳸鳹鳺鳻鳼鵀鵁鵂鵃鵄鵅鵆鵇鵈鵉鵊鵋鵌鵍鵎鵏鵐鵑鵒鵓鵔鵕鵖鵗鵘鵙鵚鵛鵜鵝鵞鵟鵠鵡鵢鵣鵤鵥鵦鵧鵨鵩鵪鵫鵬鵭鵮鵯鵰鵱鵲鵳鵴鵵鵶鵷鵸鵹鵺鵻鵼鵽鵾鶀鶁鶂鶃鶄鶅鶆鶇鶈鶉鶊鶋鶌鶍鶎鶏鶐鶑鶒鶓鶔鶕鶖鶗鶘鶙鶚鶛鶜鶝鶞鶟鶠鶡鶢鶣鶤鶥鶦鶧鶨鶩鶪鶫鶬鶭鶮鶯鶰鶱鶲鶳鶴鶵鶶鶷鶸鶹鶺鶻鶼鶽鶾鶿鷀鷁鷂鷃鷄鷅鷆鷇鷈鷉鷊鷋鷌鷍鷎鷏鷐鷑鷒鷓鷔鷕鷖鷗鷘鷙鷚鷛鷜鷝鷞鷟鷠鷡鷢鷣鷤鷥鷦鷧鷨鷩鷪鷫鷬鷭鷮鷯鷰鷱鷲鷳鷴鷵鷶鷷鷸鷹鷺鷻鷼鹀鹁鹂鹃鹄鹅鹆鹇鹈鹉鹊鹋鹌鹍鹎鹏鹐鹑鹒鹓鹔鹕鹖鹗鹘鹙鹚鹛鹜鹝鹞鹟鹠鹡鹢鹣鹤鹥鹦鹧鹨鹩鹪鹫鹬鹭鹮鹯鹰鹱鹲鹳鹴鹵鹶鹷鹸鹹鹺鹻鹼鹽鹾麀麁麂麃麄麅麆麇麈麉麊麋麌麍麎麏麐麑麒麓麔麕麖麗麘麙麚麛麜麝麞麟麠麡麢麣麤麥麦麧麨麩麪麫麬麭麮麯麰麱麲麳麴麵麶麷麸麹麺麻麼麽麾麿黀黁黂黃黄黅黆黇黈黉黊黋黌黍黎黏黐黑黒黓黔黕黖黗默黙黚黛黜黝點黟黠黡黢黣黤黥黦黧黨黩黪黫黬黭黮黯黰黱黲黳黴黵黶黷黸黹黺黻黼齀齁齂齃齄齅齆齇齈齉",
  "齊齋齌齍齎齏齐齑齒齓齔齕齖齗齘齙齚齛齜齝齞齟齠齡齢齣齤齥齦齧齨齩齪齫齬齭齮齯齰齱齲齳齴齵齶齷齸齹齺齻齼齽齾龀龁龂龃龄龅龆龇龈龉龊龋龌龍龎龏龐龑龒龓龔龕龖龗龘龙龚龛龜龝龞龟龠龡龢龣龤龥龦龧龨龩龪龫龬龭龮龯龰龱龲龳龴龵龶龷龸龹龺龻龼龽龾龿鿀鿁鿂鿃鿄鿅鿆鿇鿈鿉鿊鿋鿌鿍鿎鿏鿐鿑鿒鿓鿔鿕鿖鿗鿘鿙鿚鿛鿜鿝鿞鿟鿠鿡鿢鿣鿤鿥鿦鿧鿨鿩鿪鿫鿬鿭鿮鿯鿰鿱鿲鿳鿴鿵鿶鿷鿸鿹鿺鿻鿼",
  "",
  "",
  "鹿論壟弄籠聾牢磊賂雷壘屢樓淚漏累縷陋勒肋凜凌稜綾菱陵讀拏樂諾丹寧怒率異北磻便復不泌數索參塞省葉說殺辰沈拾若掠略亮兩凉梁糧良諒量呂女廬旅濾礪閭驪麗黎力曆歷轢年憐戀撚漣煉璉秊練聯輦蓮連鍊列劣咽烈裂說廉念捻殮簾獵令囹寧嶺怜玲瑩羚聆鈴零靈領例禮醴隸惡了僚寮尿料樂燎療蓼遼龍暈阮劉杻柳流溜琉留硫紐類六戮陸倫崙淪輪律慄栗率隆利吏履易李梨泥理痢罹裏裡里離匿溺吝燐璘藺隣鱗麟林淋臨立笠粒狀炙識懲敏既暑梅海渚漢煮爫琢碑社祉祈祐祖祝禍禎穀突節練縉繁署者臭艹艹著褐視謁謹賓贈辶逸難響頻恵𤋮舘﩮﩯並况全侀充冀勇勺喝啕喙嗢塚墳奄婢嬨廒廙彩徭惘慎愈憎慠懲戴揄搜摒敖晴朗望杖歹殺流滛滋漢瀞煮瞧爵犯猪瑱甆画瘝瘟益盛直睊着磌窱節类絛練缾者荒華蝹襁覆視調諸請謁諾諭謹變贈輸遲醙鉶陼難靖韛響頋頻鬒龜𢡊𢡄𣏕㮝䀘䀹𥉉𥳐𧻓齃龎﫚﫛﫜﫝﫞﫟﫠﫡﫢﫣﫤﫥﫦﫧﫨﫩﫪﫫﫬﫭﫮﫯﫰﫱﫲﫳﫴﫵﫶﫷﫸﫹﫺﫻﫼נּסּ﭂ףּפּ﭅צּקּרּשּתּוֹבֿכֿפֿﭏﭐﭑﭒﭓﭔﭕﭖﭗﭘﭙﭚﭛﭜﭝﭞﭟﭠﭡﭢﭣﭤﭥﭦﭧﭨﭩﭪﭫﭬﭭﭮﭯﭰﭱﭲﭳﭴﭵﭶﭷﭸﭹﭺﭻﭼﭽﭾﮀﮁﮂﮃﮄﮅﮆﮇﮈﮉﮊﮋﮌﮍﮎﮏﮐﮑﮒﮓﮔﮕﮖﮗﮘﮙﮚﮛﮜﮝﮞﮟﮠﮡﮢﮣﮤﮥﮦﮧﮨﮩﮪﮫﮬﮭﮮﮯﮰﮱ﮲﮳﮴﮵﮶﮷﮸﮹﮺﮻﮼﮽﮾﮿﯀﯁﯂﯃﯄﯅﯆﯇﯈﯉﯊﯋﯌﯍﯎﯏﯐﯑﯒ﯓﯔﯕﯖﯗﯘﯙﯚﯛﯜﯝﯞﯟﯠﯡﯢﯣﯤﯥﯦﯧﯨﯩﯪﯫﯬﯭﯮﯯﯰﯱﯲﯳﯴﯵﯶﯷﯸﯹﯺﯻﯼﱀﱁﱂﱃﱄﱅﱆﱇﱈﱉﱊﱋ"]

/-- The value side of the cp932 double-byte table: the i-th character of
these strings is the decoding of the i-th key pair, exactly as
`bytes([lead, trail]).decode("cp932")` produces it. -/
def cp932ValChunks : List String := [
  "　、。，．・：；？！゛゜´｀¨＾￣＿ヽヾゝゞ〃仝々〆〇ー―‐／＼～∥｜…‥‘’“”（）〔〕［］｛｝〈〉《》「」『』【】＋－±×÷＝≠＜＞≦≧∞∴♂♀°′″℃￥＄￠￡％＃＆＊＠§☆★○●◎◇◆□■△▲▽▼※〒→←↑↓〓∈∋⊆⊇⊂⊃∪∩∧∨￢⇒⇔∀∃∠⊥⌒∂∇≡≒≪≫√∽∝∵∫∬Å‰♯♭♪†‡¶◯０１２３４５６７８９ＡＢＣＤＥＦＧＨＩＪＫＬＭＮＯＰＱＲＳＴＵＶＷＸＹＺａｂｃｄｅｆｇｈｉｊｋｌｍｎｏｐｑｒｓｔｕｖｗｘｙｚぁあぃいぅうぇえぉおかがきぎくぐけげこごさざしじすずせぜそぞただちぢっつづてでとどなにぬねのはばぱひびぴふぶぷへべぺほぼぽまみむめもゃやゅゆょよらりるれろゎわゐゑをんァアィイゥウェエォオカガキギクグケゲコゴサザシジスズセゼソゾタダチヂッツヅテデトドナニヌネノハバパヒビピフブプヘベペホボポマミムメモャヤュユョヨラリルレロヮワヰヱヲンヴヵヶΑΒΓΔΕΖΗΘΙΚΛΜΝΞΟΠΡΣΤΥΦΧΨΩαβγδεζηθικλμνξοπρστυφχψωАБВГДЕЁЖЗИЙКЛМНОПРСТУФХЦЧШЩЪЫЬЭЮЯабвгдеёжзийклмнопрстуфхцчшщъыьэюя─│┌┐┘└├┬┤┴┼━┃┏┓┛┗┣┳┫┻╋┠┯┨┷┿┝┰┥┸╂①②③④⑤⑥⑦⑧⑨⑩⑪⑫⑬⑭⑮⑯⑰⑱⑲⑳ⅠⅡⅢⅣⅤⅥⅦⅧⅨⅩ㍉㌔㌢㍍㌘㌧㌃㌶㍑㍗㌍㌦㌣㌫㍊㌻㎜㎝㎞㎎㎏㏄㎡㍻〝〟№㏍℡㊤㊥㊦㊧㊨㈱㈲㈹㍾㍽㍼≒≡∫∮∑√⊥∠∟⊿∵∩∪亜唖娃阿哀愛挨姶逢葵茜穐悪握渥旭葦芦鯵梓圧斡扱宛姐虻飴絢綾鮎或粟袷安庵按暗案闇鞍杏以伊位依偉囲夷委威尉惟意慰易椅為畏異移維緯胃萎衣謂違遺医井亥域育郁磯一壱溢逸稲茨芋鰯允印咽員因姻引飲淫胤蔭院陰隠韻吋右宇烏羽迂雨卯鵜窺丑碓臼渦嘘唄欝蔚鰻姥厩浦瓜閏噂云運雲荏餌叡営嬰影映曳栄永泳洩瑛盈穎頴英衛詠鋭液疫益駅悦謁越閲榎厭円園堰奄宴延怨掩援沿演炎焔煙燕猿縁艶苑薗遠鉛鴛塩於汚甥凹央奥往応押旺横欧殴王翁襖鴬鴎黄岡沖荻億屋憶臆桶牡乙俺卸恩温穏音下化仮何伽価佳加可嘉夏嫁家寡科暇果架歌河火珂禍禾稼箇花苛茄荷華菓蝦課嘩貨迦過霞蚊俄峨我牙画臥芽蛾賀雅餓駕介会解回塊壊廻快怪悔恢懐戒拐改魁晦械海灰界皆絵芥蟹開階貝凱劾外咳害崖慨概涯碍蓋街該鎧骸浬馨蛙垣柿蛎鈎劃嚇各廓拡撹格核殻獲確穫覚角赫較郭閣隔革学岳楽額顎掛笠樫橿梶鰍潟割喝恰括活渇滑葛褐轄且鰹叶椛樺鞄株兜竃蒲釜鎌噛鴨栢茅萱粥刈苅瓦乾侃冠寒刊勘勧巻喚堪姦完官寛干幹患感慣憾換敢柑桓棺款歓汗漢澗潅環甘監看竿管簡緩缶翰肝艦莞観諌貫還鑑間閑関陥韓館舘丸含岸巌玩癌眼岩翫贋雁頑顔願企伎危喜器基奇嬉寄岐希幾忌揮机旗既期棋棄機帰毅気汽畿祈季稀紀徽規記貴起軌輝飢騎鬼亀偽儀妓宜戯技擬欺犠疑祇義蟻誼議掬菊鞠吉吃喫桔橘詰砧杵黍却客脚虐逆丘久仇休及吸宮弓急救朽求汲泣灸球究窮笈級糾給旧牛去居巨拒拠挙渠虚許距鋸漁禦魚亨享京供侠僑兇競共凶協匡卿叫喬境峡強彊怯恐恭挟教橋況狂狭矯胸脅興蕎",
  "郷鏡響饗驚仰凝尭暁業局曲極玉桐粁僅勤均巾錦斤欣欽琴禁禽筋緊芹菌衿襟謹近金吟銀九倶句区狗玖矩苦躯駆駈駒具愚虞喰空偶寓遇隅串櫛釧屑屈掘窟沓靴轡窪熊隈粂栗繰桑鍬勲君薫訓群軍郡卦袈祁係傾刑兄啓圭珪型契形径恵慶慧憩掲携敬景桂渓畦稽系経継繋罫茎荊蛍計詣警軽頚鶏芸迎鯨劇戟撃激隙桁傑欠決潔穴結血訣月件倹倦健兼券剣喧圏堅嫌建憲懸拳捲検権牽犬献研硯絹県肩見謙賢軒遣鍵険顕験鹸元原厳幻弦減源玄現絃舷言諺限乎個古呼固姑孤己庫弧戸故枯湖狐糊袴股胡菰虎誇跨鈷雇顧鼓五互伍午呉吾娯後御悟梧檎瑚碁語誤護醐乞鯉交佼侯候倖光公功効勾厚口向后喉坑垢好孔孝宏工巧巷幸広庚康弘恒慌抗拘控攻昂晃更杭校梗構江洪浩港溝甲皇硬稿糠紅紘絞綱耕考肯肱腔膏航荒行衡講貢購郊酵鉱砿鋼閤降項香高鴻剛劫号合壕拷濠豪轟麹克刻告国穀酷鵠黒獄漉腰甑忽惚骨狛込此頃今困坤墾婚恨懇昏昆根梱混痕紺艮魂些佐叉唆嵯左差査沙瑳砂詐鎖裟坐座挫債催再最哉塞妻宰彩才採栽歳済災采犀砕砦祭斎細菜裁載際剤在材罪財冴坂阪堺榊肴咲崎埼碕鷺作削咋搾昨朔柵窄策索錯桜鮭笹匙冊刷察拶撮擦札殺薩雑皐鯖捌錆鮫皿晒三傘参山惨撒散桟燦珊産算纂蚕讃賛酸餐斬暫残仕仔伺使刺司史嗣四士始姉姿子屍市師志思指支孜斯施旨枝止死氏獅祉私糸紙紫肢脂至視詞詩試誌諮資賜雌飼歯事似侍児字寺慈持時次滋治爾璽痔磁示而耳自蒔辞汐鹿式識鴫竺軸宍雫七叱執失嫉室悉湿漆疾質実蔀篠偲柴芝屡蕊縞舎写射捨赦斜煮社紗者謝車遮蛇邪借勺尺杓灼爵酌釈錫若寂弱惹主取守手朱殊狩珠種腫趣酒首儒受呪寿授樹綬需囚収周宗就州修愁拾洲秀秋終繍習臭舟蒐衆襲讐蹴輯週酋酬集醜什住充十従戎柔汁渋獣縦重銃叔夙宿淑祝縮粛塾熟出術述俊峻春瞬竣舜駿准循旬楯殉淳準潤盾純巡遵醇順処初所暑曙渚庶緒署書薯藷諸助叙女序徐恕鋤除傷償勝匠升召哨商唱嘗奨妾娼宵将小少尚庄床廠彰承抄招掌捷昇昌昭晶松梢樟樵沼消渉湘焼焦照症省硝礁祥称章笑粧紹肖菖蒋蕉衝裳訟証詔詳象賞醤鉦鍾鐘障鞘上丈丞乗冗剰城場壌嬢常情擾条杖浄状畳穣蒸譲醸錠嘱埴飾拭植殖燭織職色触食蝕辱尻伸信侵唇娠寝審心慎振新晋森榛浸深申疹真神秦紳臣芯薪親診身辛進針震人仁刃塵壬尋甚尽腎訊迅陣靭笥諏須酢図厨逗吹垂帥推水炊睡粋翠衰遂酔錐錘随瑞髄崇嵩数枢趨雛据杉椙菅頗雀裾澄摺寸世瀬畝是凄制勢姓征性成政整星晴棲栖正清牲生盛精聖声製西誠誓請逝醒青静斉税脆隻席惜戚斥昔析石積籍績脊責赤跡蹟碩切拙接摂折設窃節説雪絶舌蝉仙先千占宣専尖川戦扇撰栓栴泉浅洗染潜煎煽旋穿箭線繊羨腺舛船薦詮賎践選遷銭銑閃鮮前善漸然全禅繕膳糎噌塑岨措曾曽楚狙疏疎礎祖租粗素組蘇訴阻遡鼠僧創双叢倉喪壮奏爽宋層匝惣想捜掃挿掻操早曹巣槍槽漕燥争痩相窓糟総綜聡草荘葬蒼藻装走送遭鎗霜騒像増憎臓蔵贈造促側則即息捉束測足速俗属賊族続卒袖其揃存孫尊損村遜他多太汰詑唾堕妥惰打柁舵楕陀駄騨体堆対耐岱帯待怠態戴替泰滞胎腿苔袋貸退逮隊黛鯛代台大第醍題鷹滝瀧卓啄宅托択拓沢濯琢託鐸濁諾茸凧蛸只叩但達辰奪脱巽竪辿",
  "棚谷狸鱈樽誰丹単嘆坦担探旦歎淡湛炭短端箪綻耽胆蛋誕鍛団壇弾断暖檀段男談値知地弛恥智池痴稚置致蜘遅馳築畜竹筑蓄逐秩窒茶嫡着中仲宙忠抽昼柱注虫衷註酎鋳駐樗瀦猪苧著貯丁兆凋喋寵帖帳庁弔張彫徴懲挑暢朝潮牒町眺聴脹腸蝶調諜超跳銚長頂鳥勅捗直朕沈珍賃鎮陳津墜椎槌追鎚痛通塚栂掴槻佃漬柘辻蔦綴鍔椿潰坪壷嬬紬爪吊釣鶴亭低停偵剃貞呈堤定帝底庭廷弟悌抵挺提梯汀碇禎程締艇訂諦蹄逓邸鄭釘鼎泥摘擢敵滴的笛適鏑溺哲徹撤轍迭鉄典填天展店添纏甜貼転顛点伝殿澱田電兎吐堵塗妬屠徒斗杜渡登菟賭途都鍍砥砺努度土奴怒倒党冬凍刀唐塔塘套宕島嶋悼投搭東桃梼棟盗淘湯涛灯燈当痘祷等答筒糖統到董蕩藤討謄豆踏逃透鐙陶頭騰闘働動同堂導憧撞洞瞳童胴萄道銅峠鴇匿得徳涜特督禿篤毒独読栃橡凸突椴届鳶苫寅酉瀞噸屯惇敦沌豚遁頓呑曇鈍奈那内乍凪薙謎灘捺鍋楢馴縄畷南楠軟難汝二尼弐迩匂賑肉虹廿日乳入如尿韮任妊忍認濡禰祢寧葱猫熱年念捻撚燃粘乃廼之埜嚢悩濃納能脳膿農覗蚤巴把播覇杷波派琶破婆罵芭馬俳廃拝排敗杯盃牌背肺輩配倍培媒梅楳煤狽買売賠陪這蝿秤矧萩伯剥博拍柏泊白箔粕舶薄迫曝漠爆縛莫駁麦函箱硲箸肇筈櫨幡肌畑畠八鉢溌発醗髪伐罰抜筏閥鳩噺塙蛤隼伴判半反叛帆搬斑板氾汎版犯班畔繁般藩販範釆煩頒飯挽晩番盤磐蕃蛮匪卑否妃庇彼悲扉批披斐比泌疲皮碑秘緋罷肥被誹費避非飛樋簸備尾微枇毘琵眉美鼻柊稗匹疋髭彦膝菱肘弼必畢筆逼桧姫媛紐百謬俵彪標氷漂瓢票表評豹廟描病秒苗錨鋲蒜蛭鰭品彬斌浜瀕貧賓頻敏瓶不付埠夫婦富冨布府怖扶敷斧普浮父符腐膚芙譜負賦赴阜附侮撫武舞葡蕪部封楓風葺蕗伏副復幅服福腹複覆淵弗払沸仏物鮒分吻噴墳憤扮焚奮粉糞紛雰文聞丙併兵塀幣平弊柄並蔽閉陛米頁僻壁癖碧別瞥蔑箆偏変片篇編辺返遍便勉娩弁鞭保舗鋪圃捕歩甫補輔穂募墓慕戊暮母簿菩倣俸包呆報奉宝峰峯崩庖抱捧放方朋法泡烹砲縫胞芳萌蓬蜂褒訪豊邦鋒飽鳳鵬乏亡傍剖坊妨帽忘忙房暴望某棒冒紡肪膨謀貌貿鉾防吠頬北僕卜墨撲朴牧睦穆釦勃没殆堀幌奔本翻凡盆摩磨魔麻埋妹昧枚毎哩槙幕膜枕鮪柾鱒桝亦俣又抹末沫迄侭繭麿万慢満漫蔓味未魅巳箕岬密蜜湊蓑稔脈妙粍民眠務夢無牟矛霧鵡椋婿娘冥名命明盟迷銘鳴姪牝滅免棉綿緬面麺摸模茂妄孟毛猛盲網耗蒙儲木黙目杢勿餅尤戻籾貰問悶紋門匁也冶夜爺耶野弥矢厄役約薬訳躍靖柳薮鑓愉愈油癒諭輸唯佑優勇友宥幽悠憂揖有柚湧涌猶猷由祐裕誘遊邑郵雄融夕予余与誉輿預傭幼妖容庸揚揺擁曜楊様洋溶熔用窯羊耀葉蓉要謡踊遥陽養慾抑欲沃浴翌翼淀羅螺裸来莱頼雷洛絡落酪乱卵嵐欄濫藍蘭覧利吏履李梨理璃痢裏裡里離陸律率立葎掠略劉流溜琉留硫粒隆竜龍侶慮旅虜了亮僚両凌寮料梁涼猟療瞭稜糧良諒遼量陵領力緑倫厘林淋燐琳臨輪隣鱗麟瑠塁涙累類令伶例冷励嶺怜玲礼苓鈴隷零霊麗齢暦歴列劣烈裂廉恋憐漣煉簾練聯蓮連錬呂魯櫓炉賂路露労婁廊弄朗楼榔浪漏牢狼篭老聾蝋郎六麓禄肋録論倭和話歪賄脇惑枠鷲亙亘鰐詫藁蕨椀湾碗腕弌丐丕个丱丶丼丿乂乖乘亂亅豫亊舒弍于亞亟亠亢亰亳亶从仍仄仆仂仗",
  "仞仭仟价伉佚估佛佝佗佇佶侈侏侘佻佩佰侑佯來侖儘俔俟俎俘俛俑俚俐俤俥倚倨倔倪倥倅伜俶倡倩倬俾俯們倆偃假會偕偐偈做偖偬偸傀傚傅傴傲僉僊傳僂僖僞僥僭僣僮價僵儉儁儂儖儕儔儚儡儺儷儼儻儿兀兒兌兔兢竸兩兪兮冀冂囘册冉冏冑冓冕冖冤冦冢冩冪冫决冱冲冰况冽凅凉凛几處凩凭凰凵凾刄刋刔刎刧刪刮刳刹剏剄剋剌剞剔剪剴剩剳剿剽劍劔劒剱劈劑辨辧劬劭劼劵勁勍勗勞勣勦飭勠勳勵勸勹匆匈甸匍匐匏匕匚匣匯匱匳匸區卆卅丗卉卍凖卞卩卮夘卻卷厂厖厠厦厥厮厰厶參簒雙叟曼燮叮叨叭叺吁吽呀听吭吼吮吶吩吝呎咏呵咎呟呱呷呰咒呻咀呶咄咐咆哇咢咸咥咬哄哈咨咫哂咤咾咼哘哥哦唏唔哽哮哭哺哢唹啀啣啌售啜啅啖啗唸唳啝喙喀咯喊喟啻啾喘喞單啼喃喩喇喨嗚嗅嗟嗄嗜嗤嗔嘔嗷嘖嗾嗽嘛嗹噎噐營嘴嘶嘲嘸噫噤嘯噬噪嚆嚀嚊嚠嚔嚏嚥嚮嚶嚴囂嚼囁囃囀囈囎囑囓囗囮囹圀囿圄圉圈國圍圓團圖嗇圜圦圷圸坎圻址坏坩埀垈坡坿垉垓垠垳垤垪垰埃埆埔埒埓堊埖埣堋堙堝塲堡塢塋塰毀塒堽塹墅墹墟墫墺壞墻墸墮壅壓壑壗壙壘壥壜壤壟壯壺壹壻壼壽夂夊夐夛梦夥夬夭夲夸夾竒奕奐奎奚奘奢奠奧奬奩奸妁妝佞侫妣妲姆姨姜妍姙姚娥娟娑娜娉娚婀婬婉娵娶婢婪媚媼媾嫋嫂媽嫣嫗嫦嫩嫖嫺嫻嬌嬋嬖嬲嫐嬪嬶嬾孃孅孀孑孕孚孛孥孩孰孳孵學斈孺宀它宦宸寃寇寉寔寐寤實寢寞寥寫寰寶寳尅將專對尓尠尢尨尸尹屁屆屎屓屐屏孱屬屮乢屶屹岌岑岔妛岫岻岶岼岷峅岾峇峙峩峽峺峭嶌峪崋崕崗嵜崟崛崑崔崢崚崙崘嵌嵒嵎嵋嵬嵳嵶嶇嶄嶂嶢嶝嶬嶮嶽嶐嶷嶼巉巍巓巒巖巛巫已巵帋帚帙帑帛帶帷幄幃幀幎幗幔幟幢幤幇幵并幺麼广庠廁廂廈廐廏廖廣廝廚廛廢廡廨廩廬廱廳廰廴廸廾弃弉彝彜弋弑弖弩弭弸彁彈彌彎弯彑彖彗彙彡彭彳彷徃徂彿徊很徑徇從徙徘徠徨徭徼忖忻忤忸忱忝悳忿怡恠怙怐怩怎怱怛怕怫怦怏怺恚恁恪恷恟恊恆恍恣恃恤恂恬恫恙悁悍惧悃悚悄悛悖悗悒悧悋惡悸惠惓悴忰悽惆悵惘慍愕愆惶惷愀惴惺愃愡惻惱愍愎慇愾愨愧慊愿愼愬愴愽慂慄慳慷慘慙慚慫慴慯慥慱慟慝慓慵憙憖憇憬憔憚憊憑憫憮懌懊應懷懈懃懆憺懋罹懍懦懣懶懺懴懿懽懼懾戀戈戉戍戌戔戛戞戡截戮戰戲戳扁扎扞扣扛扠扨扼抂抉找抒抓抖拔抃抔拗拑抻拏拿拆擔拈拜拌拊拂拇抛拉挌拮拱挧挂挈拯拵捐挾捍搜捏掖掎掀掫捶掣掏掉掟掵捫捩掾揩揀揆揣揉插揶揄搖搴搆搓搦搶攝搗搨搏摧摯摶摎攪撕撓撥撩撈撼據擒擅擇撻擘擂擱擧舉擠擡抬擣擯攬擶擴擲擺攀擽攘攜攅攤攣攫攴攵攷收攸畋效敖敕敍敘敞敝敲數斂斃變斛斟斫斷旃旆旁旄旌旒旛旙无旡旱杲昊昃旻杳昵昶昴昜晏晄晉晁晞晝晤晧晨晟晢晰暃暈暎暉暄暘暝曁暹曉暾暼曄暸曖曚曠昿曦曩曰曵曷朏朖朞朦朧霸朮朿朶杁朸朷杆杞杠杙杣杤枉杰枩杼杪枌枋枦枡枅枷柯枴柬枳柩枸柤柞柝柢柮枹柎柆柧檜栞框栩桀桍栲桎梳栫桙档桷桿梟梏梭梔條梛梃檮梹桴梵梠梺椏梍桾椁棊椈棘椢椦棡椌棍棔棧棕椶椒椄棗棣椥棹棠棯椨椪椚椣椡棆楹楷楜楸楫楔楾楮椹楴椽楙椰楡楞楝榁楪榲榮槐榿槁槓榾槎寨槊槝榻槃榧樮榑榠榜榕榴槞槨樂樛槿權槹槲槧樅榱樞槭樔槫樊樒櫁樣樓橄樌橲樶橸橇橢橙橦橈樸樢檐檍檠檄檢檣檗蘗檻櫃櫂檸檳檬櫞櫑",
  "櫟檪櫚櫪櫻欅蘖櫺欒欖鬱欟欸欷盜欹飮歇歃歉歐歙歔歛歟歡歸歹歿殀殄殃殍殘殕殞殤殪殫殯殲殱殳殷殼毆毋毓毟毬毫毳毯麾氈氓气氛氤氣汞汕汢汪沂沍沚沁沛汾汨汳沒沐泄泱泓沽泗泅泝沮沱沾沺泛泯泙泪洟衍洶洫洽洸洙洵洳洒洌浣涓浤浚浹浙涎涕濤涅淹渕渊涵淇淦涸淆淬淞淌淨淒淅淺淙淤淕淪淮渭湮渮渙湲湟渾渣湫渫湶湍渟湃渺湎渤滿渝游溂溪溘滉溷滓溽溯滄溲滔滕溏溥滂溟潁漑灌滬滸滾漿滲漱滯漲滌漾漓滷澆潺潸澁澀潯潛濳潭澂潼潘澎澑濂潦澳澣澡澤澹濆澪濟濕濬濔濘濱濮濛瀉瀋濺瀑瀁瀏濾瀛瀚潴瀝瀘瀟瀰瀾瀲灑灣炙炒炯烱炬炸炳炮烟烋烝烙焉烽焜焙煥煕熈煦煢煌煖煬熏燻熄熕熨熬燗熹熾燒燉燔燎燠燬燧燵燼燹燿爍爐爛爨爭爬爰爲爻爼爿牀牆牋牘牴牾犂犁犇犒犖犢犧犹犲狃狆狄狎狒狢狠狡狹狷倏猗猊猜猖猝猴猯猩猥猾獎獏默獗獪獨獰獸獵獻獺珈玳珎玻珀珥珮珞璢琅瑯琥珸琲琺瑕琿瑟瑙瑁瑜瑩瑰瑣瑪瑶瑾璋璞璧瓊瓏瓔珱瓠瓣瓧瓩瓮瓲瓰瓱瓸瓷甄甃甅甌甎甍甕甓甞甦甬甼畄畍畊畉畛畆畚畩畤畧畫畭畸當疆疇畴疊疉疂疔疚疝疥疣痂疳痃疵疽疸疼疱痍痊痒痙痣痞痾痿痼瘁痰痺痲痳瘋瘍瘉瘟瘧瘠瘡瘢瘤瘴瘰瘻癇癈癆癜癘癡癢癨癩癪癧癬癰癲癶癸發皀皃皈皋皎皖皓皙皚皰皴皸皹皺盂盍盖盒盞盡盥盧盪蘯盻眈眇眄眩眤眞眥眦眛眷眸睇睚睨睫睛睥睿睾睹瞎瞋瞑瞠瞞瞰瞶瞹瞿瞼瞽瞻矇矍矗矚矜矣矮矼砌砒礦砠礪硅碎硴碆硼碚碌碣碵碪碯磑磆磋磔碾碼磅磊磬磧磚磽磴礇礒礑礙礬礫祀祠祗祟祚祕祓祺祿禊禝禧齋禪禮禳禹禺秉秕秧秬秡秣稈稍稘稙稠稟禀稱稻稾稷穃穗穉穡穢穩龝穰穹穽窈窗窕窘窖窩竈窰窶竅竄窿邃竇竊竍竏竕竓站竚竝竡竢竦竭竰笂笏笊笆笳笘笙笞笵笨笶筐筺笄筍笋筌筅筵筥筴筧筰筱筬筮箝箘箟箍箜箚箋箒箏筝箙篋篁篌篏箴篆篝篩簑簔篦篥籠簀簇簓篳篷簗簍篶簣簧簪簟簷簫簽籌籃籔籏籀籐籘籟籤籖籥籬籵粃粐粤粭粢粫粡粨粳粲粱粮粹粽糀糅糂糘糒糜糢鬻糯糲糴糶糺紆紂紜紕紊絅絋紮紲紿紵絆絳絖絎絲絨絮絏絣經綉絛綏絽綛綺綮綣綵緇綽綫總綢綯緜綸綟綰緘緝緤緞緻緲緡縅縊縣縡縒縱縟縉縋縢繆繦縻縵縹繃縷縲縺繧繝繖繞繙繚繹繪繩繼繻纃緕繽辮繿纈纉續纒纐纓纔纖纎纛纜缸缺罅罌罍罎罐网罕罔罘罟罠罨罩罧罸羂羆羃羈羇羌羔羞羝羚羣羯羲羹羮羶羸譱翅翆翊翕翔翡翦翩翳翹飜耆耄耋耒耘耙耜耡耨耿耻聊聆聒聘聚聟聢聨聳聲聰聶聹聽聿肄肆肅肛肓肚肭冐肬胛胥胙胝胄胚胖脉胯胱脛脩脣脯腋隋腆脾腓腑胼腱腮腥腦腴膃膈膊膀膂膠膕膤膣腟膓膩膰膵膾膸膽臀臂膺臉臍臑臙臘臈臚臟臠臧臺臻臾舁舂舅與舊舍舐舖舩舫舸舳艀艙艘艝艚艟艤艢艨艪艫舮艱艷艸艾芍芒芫芟芻芬苡苣苟苒苴苳苺莓范苻苹苞茆苜茉苙茵茴茖茲茱荀茹荐荅茯茫茗茘莅莚莪莟莢莖茣莎莇莊荼莵荳荵莠莉莨菴萓菫菎菽萃菘萋菁菷萇菠菲萍萢萠莽萸蔆菻葭萪萼蕚蒄葷葫蒭葮蒂葩葆萬葯葹萵蓊葢蒹蒿蒟蓙蓍蒻蓚蓐蓁蓆蓖蒡蔡蓿蓴蔗蔘蔬蔟蔕蔔蓼蕀蕣蕘蕈蕁蘂蕋蕕薀薤薈薑薊薨蕭薔薛藪薇薜蕷蕾薐藉薺藏薹藐藕藝藥藜藹蘊蘓蘋藾藺蘆蘢蘚蘰蘿虍乕虔號虧虱蚓蚣蚩蚪蚋蚌蚶蚯蛄蛆蚰蛉蠣蚫蛔蛞蛩蛬蛟蛛蛯蜒蜆蜈蜀蜃蛻蜑蜉蜍蛹蜊蜴蜿蜷蜻蜥蜩",
  "蜚蝠蝟蝸蝌蝎蝴蝗蝨蝮蝙蝓蝣蝪蠅螢螟螂螯蟋螽蟀蟐雖螫蟄螳蟇蟆螻蟯蟲蟠蠏蠍蟾蟶蟷蠎蟒蠑蠖蠕蠢蠡蠱蠶蠹蠧蠻衄衂衒衙衞衢衫袁衾袞衵衽袵衲袂袗袒袮袙袢袍袤袰袿袱裃裄裔裘裙裝裹褂裼裴裨裲褄褌褊褓襃褞褥褪褫襁襄褻褶褸襌褝襠襞襦襤襭襪襯襴襷襾覃覈覊覓覘覡覩覦覬覯覲覺覽覿觀觚觜觝觧觴觸訃訖訐訌訛訝訥訶詁詛詒詆詈詼詭詬詢誅誂誄誨誡誑誥誦誚誣諄諍諂諚諫諳諧諤諱謔諠諢諷諞諛謌謇謚諡謖謐謗謠謳鞫謦謫謾謨譁譌譏譎證譖譛譚譫譟譬譯譴譽讀讌讎讒讓讖讙讚谺豁谿豈豌豎豐豕豢豬豸豺貂貉貅貊貍貎貔豼貘戝貭貪貽貲貳貮貶賈賁賤賣賚賽賺賻贄贅贊贇贏贍贐齎贓賍贔贖赧赭赱赳趁趙跂趾趺跏跚跖跌跛跋跪跫跟跣跼踈踉跿踝踞踐踟蹂踵踰踴蹊蹇蹉蹌蹐蹈蹙蹤蹠踪蹣蹕蹶蹲蹼躁躇躅躄躋躊躓躑躔躙躪躡躬躰軆躱躾軅軈軋軛軣軼軻軫軾輊輅輕輒輙輓輜輟輛輌輦輳輻輹轅轂輾轌轉轆轎轗轜轢轣轤辜辟辣辭辯辷迚迥迢迪迯邇迴逅迹迺逑逕逡逍逞逖逋逧逶逵逹迸遏遐遑遒逎遉逾遖遘遞遨遯遶隨遲邂遽邁邀邊邉邏邨邯邱邵郢郤扈郛鄂鄒鄙鄲鄰酊酖酘酣酥酩酳酲醋醉醂醢醫醯醪醵醴醺釀釁釉釋釐釖釟釡釛釼釵釶鈞釿鈔鈬鈕鈑鉞鉗鉅鉉鉤鉈銕鈿鉋鉐銜銖銓銛鉚鋏銹銷鋩錏鋺鍄錮錙錢錚錣錺錵錻鍜鍠鍼鍮鍖鎰鎬鎭鎔鎹鏖鏗鏨鏥鏘鏃鏝鏐鏈鏤鐚鐔鐓鐃鐇鐐鐶鐫鐵鐡鐺鑁鑒鑄鑛鑠鑢鑞鑪鈩鑰鑵鑷鑽鑚鑼鑾钁鑿閂閇閊閔閖閘閙閠閨閧閭閼閻閹閾闊濶闃闍闌闕闔闖關闡闥闢阡阨阮阯陂陌陏陋陷陜陞陝陟陦陲陬隍隘隕隗險隧隱隲隰隴隶隸隹雎雋雉雍襍雜霍雕雹霄霆霈霓霎霑霏霖霙霤霪霰霹霽霾靄靆靈靂靉靜靠靤靦靨勒靫靱靹鞅靼鞁靺鞆鞋鞏鞐鞜鞨鞦鞣鞳鞴韃韆韈韋韜韭齏韲竟韶韵頏頌頸頤頡頷頽顆顏顋顫顯顰顱顴顳颪颯颱颶飄飃飆飩飫餃餉餒餔餘餡餝餞餤餠餬餮餽餾饂饉饅饐饋饑饒饌饕馗馘馥馭馮馼駟駛駝駘駑駭駮駱駲駻駸騁騏騅駢騙騫騷驅驂驀驃騾驕驍驛驗驟驢驥驤驩驫驪骭骰骼髀髏髑髓體髞髟髢髣髦髯髫髮髴髱髷髻鬆鬘鬚鬟鬢鬣鬥鬧鬨鬩鬪鬮鬯鬲魄魃魏魍魎魑魘魴鮓鮃鮑鮖鮗鮟鮠鮨鮴鯀鯊鮹鯆鯏鯑鯒鯣鯢鯤鯔鯡鰺鯲鯱鯰鰕鰔鰉鰓鰌鰆鰈鰒鰊鰄鰮鰛鰥鰤鰡鰰鱇鰲鱆鰾鱚鱠鱧鱶鱸鳧鳬鳰鴉鴈鳫鴃鴆鴪鴦鶯鴣鴟鵄鴕鴒鵁鴿鴾鵆鵈鵝鵞鵤鵑鵐鵙鵲鶉鶇鶫鵯鵺鶚鶤鶩鶲鷄鷁鶻鶸鶺鷆鷏鷂鷙鷓鷸鷦鷭鷯鷽鸚鸛鸞鹵鹹鹽麁麈麋麌麒麕麑麝麥麩麸麪麭靡黌黎黏黐黔黜點黝黠黥黨黯黴黶黷黹黻黼黽鼇鼈皷鼕鼡鼬鼾齊齒齔齣齟齠齡齦齧齬齪齷齲齶龕龜龠堯槇遙瑤凜熙纊褜鍈銈蓜俉炻昱棈鋹曻彅丨仡仼伀伃伹佖侒侊侚侔俍偀倢俿倞偆偰偂傔僴僘兊兤冝冾凬刕劜劦勀勛匀匇匤卲厓厲叝﨎咜咊咩哿喆坙坥垬埈埇﨏塚增墲夋奓奛奝奣妤妺孖寀甯寘寬尞岦岺峵崧嵓﨑嵂嵭嶸嶹巐弡弴彧德忞恝悅悊惞惕愠惲愑愷愰憘戓抦揵摠撝擎敎昀昕昻昉昮昞昤晥晗晙晴晳暙暠暲暿曺朎朗杦枻桒柀栁桄棏﨓楨﨔榘槢樰橫橆橳橾櫢櫤毖氿汜沆汯泚洄涇浯涖涬淏淸淲淼渹湜渧渼溿澈澵濵瀅瀇瀨炅炫焏焄煜煆煇凞燁燾犱犾猤猪獷玽珉珖珣珒琇珵琦琪琩琮瑢璉璟甁畯皂皜皞皛皦益睆劯砡硎硤硺礰礼神祥禔福禛竑竧靖竫箞精絈絜綷綠緖繒罇羡羽茁荢",
  "荿菇菶葈蒴蕓蕙蕫﨟薰蘒﨡蠇裵訒訷詹誧誾諟諸諶譓譿賰賴贒赶﨣軏﨤逸遧郞都鄕鄧釚釗釞釭釮釤釥鈆鈐鈊鈺鉀鈼鉎鉙鉑鈹鉧銧鉷鉸鋧鋗鋙鋐﨧鋕鋠鋓錥錡鋻﨨錞鋿錝錂鍰鍗鎤鏆鏞鏸鐱鑅鑈閒隆﨩隝隯霳霻靃靍靏靑靕顗顥飯飼餧館馞驎髙髜魵魲鮏鮱鮻鰀鵰鵫鶴鸙黑ⅰⅱⅲⅳⅴⅵⅶⅷⅸⅹ￢￤＇＂",
  "ⅰⅱⅲⅳⅴⅵⅶⅷⅸⅹⅠⅡⅢⅣⅤⅥⅦⅧⅨⅩ￢￤＇＂㈱№℡∵纊褜鍈銈蓜俉炻昱棈鋹曻彅丨仡仼伀伃伹佖侒侊侚侔俍偀倢俿倞偆偰偂傔僴僘兊兤冝冾凬刕劜劦勀勛匀匇匤卲厓厲叝﨎咜咊咩哿喆坙坥垬埈埇﨏塚增墲夋奓奛奝奣妤妺孖寀甯寘寬尞岦岺峵崧嵓﨑嵂嵭嶸嶹巐弡弴彧德忞恝悅悊惞惕愠惲愑愷愰憘戓抦揵摠撝擎敎昀昕昻昉昮昞昤晥晗晙晴晳暙暠暲暿曺朎朗杦枻桒柀栁桄棏﨓楨﨔榘槢樰橫橆橳橾櫢櫤毖氿汜沆汯泚洄涇浯涖涬淏淸淲淼渹湜渧渼溿澈澵濵瀅瀇瀨炅炫焏焄煜煆煇凞燁燾犱犾猤猪獷玽珉珖珣珒琇珵琦琪琩琮瑢璉璟甁畯皂皜皞皛皦益睆劯砡硎硤硺礰礼神祥禔福禛竑竧靖竫箞精絈絜綷綠緖繒罇羡羽茁荢荿菇菶葈蒴蕓蕙蕫﨟薰蘒﨡蠇裵訒訷詹誧誾諟諸諶譓譿賰賴贒赶﨣軏﨤逸遧郞都鄕鄧釚釗釞釭釮釤釥鈆鈐鈊鈺鉀鈼鉎鉙鉑鈹鉧銧鉷鉸鋧鋗鋙鋐﨧鋕鋠鋓錥錡鋻﨨錞鋿錝錂鍰鍗鎤鏆鏞鏸鐱鑅鑈閒隆﨩隝隯霳霻靃靍靏靑靕顗顥飯飼餧館馞驎髙髜魵魲鮏鮱鮻鰀鵰鵫鶴鸙黑"]

/-- The flattened key code points. -/
def cp932Keys : List Char := cp932KeyChunks.flatMap String.data

/-- The flattened value code points, parallel to `cp932Keys`. -/
def cp932Vals : List Char := cp932ValChunks.flatMap String.data

/-- Parallel-list lookup driving the double-byte decoding. -/
def cp932Find : List Char → List Char → Nat → Option Nat
  | k :: ks, v :: vs, key =>
      if k.toNat == key then some v.toNat else cp932Find ks vs key
  | _, _, _ => none

/-- Decode one cp932 double-byte sequence: defined exactly on the pairs
of the table above. -/
def cp932Pair (b1 b2 : Nat) : Option Nat :=
  cp932Find cp932Keys cp932Vals (b1 * 256 + b2)

/-- `bytes.decode("cp932")`: ASCII passes through; the codec also maps
the single bytes `0x80` to U+0080 and `0xA0`, `0xFD`, `0xFE`, `0xFF` to
the private-use points U+F8F0-U+F8F3; `0xA1`-`0xDF` are the halfwidth
katakana; the remaining bytes (`0x81`-`0x9F`, `0xE0`-`0xFC`) are lead
bytes of double-byte sequences resolved through `cp932Pair`; anything
else fails. -/
def cp932Decode : List Nat → Option (List Char)
  | [] => some []
  | b :: bs =>
      if b < 0x80 then
        (cp932Decode bs).map (Char.ofNat b :: .)
      else if b = 0x80 then
        (cp932Decode bs).map (Char.ofNat 0x80 :: .)
      else if b = 0xA0 then
        (cp932Decode bs).map (Char.ofNat 0xF8F0 :: .)
      else if 0xA1 <= b && b <= 0xDF then
        (cp932Decode bs).map (Char.ofNat (0xFF61 + (b - 0xA1)) :: .)
      else if 0xFD <= b && b <= 0xFF then
        (cp932Decode bs).map (Char.ofNat (0xF8F1 + (b - 0xFD)) :: .)
      else
        match bs with
        | b2 :: rest =>
            match cp932Pair b b2 with
            | some cp => (cp932Decode rest).map (Char.ofNat cp :: .)
            | none => none
        | [] => none

/-- The name transformation of `extract_zip` (archive.py lines 120-127):
re-encode the reader-supplied name as cp437 and try UTF-8 then cp932; on
any failure fall back to the name as supplied. -/
def decodeName (s : String) : String :=
  match encodeCp437 s.data with
  | none => s
  | some bs =>
      match utf8Decode bs with
      | some cs => String.mk cs
      | none =>
          match cp932Decode bs with
          | some cs => String.mk cs
          | none => s

/-- Write one file under the destination, overwriting any existing file
at that relative path (`open(target, "wb")`). -/
def setFile (files : List (String × Nat)) (name : String) (content : Nat) :
    List (String × Nat) :=
  if files.any (fun e => e.1 == name) then
    files.map fun e => if e.1 == name then (name, content) else e
  else files ++ [(name, content)]

/-- One iteration of `extract_zip`'s loop: decode the entry name, write
the file, append the decoded name to the extraction log. -/
def extractStep (acc : List String × List (String × Nat)) (e : ZEntry) :
    List String × List (String × Nat) :=
  let name := decodeName e.filename
  (acc.1 ++ [name], setFile acc.2 name e.content)

/-- `ArchiveService.extract_zip`: write every entry under the
destination and return the sorted list of decoded names together with the
resulting destination contents. -/
def extractZip (archive : List ZEntry) (dest : List (String × Nat)) :
    List String × List (String × Nat) :=
  let out := archive.foldl extractStep ([], dest)
  (sortStrings out.1, out.2)


unseal List.merge List.mergeSort

theorem mergeSortStr_eq_of_perm {l₁ l₂ : List String}
    (hp : l₁.Perm l₂) (hn : l₁.Nodup) : sortStrings l₁ = sortStrings l₂ := by
  unfold sortStrings
  have htrans : ∀ a b c : String, strLe a b = true → strLe b c = true →
      strLe a c = true := fun _ _ _ h₁ h₂ => strLe_trans h₁ h₂
  have htotal : ∀ a b : String, (strLe a b || strLe b a) = true := by
    intro a b
    rcases strLe_total a b with h | h <;> simp [h]
  have hs₁ := List.sorted_mergeSort htrans htotal l₁
  have hs₂ := List.sorted_mergeSort htrans htotal l₂
  have hperm : (l₁.mergeSort strLe).Perm (l₂.mergeSort strLe) :=
    ((List.mergeSort_perm l₁ _).trans hp).trans (List.mergeSort_perm l₂ _).symm
  have hn₁ : (l₁.mergeSort strLe).Nodup := hn.perm (List.mergeSort_perm l₁ _).symm
  have hn₂ : (l₂.mergeSort strLe).Nodup := hn₁.perm hperm
  have hstrict : ∀ {m : List String},
      List.Sorted (fun a b : String => strLe a b = true) m → m.Nodup →
      List.Sorted (fun a b : String => strLt a b = true) m := by
    intro m hs hnd
    exact (hs.and hnd).imp fun {a b} h => by
      rcases strLt_connex h.2 with hlt | hlt
      · exact hlt
      · exact absurd hlt (by
          have := h.1
          simp only [strLe, Bool.not_eq_true'] at this
          simp [this])
  haveI : IsAntisymm String (fun a b => strLt a b = true) :=
    ⟨fun a b h₁ h₂ => absurd h₂ (by simp [strLt_asymm h₁])⟩
  exact List.eq_of_perm_of_sorted hperm (hstrict hs₁ hn₁) (hstrict hs₂ hn₂)

theorem setFile_append {fs : List (String × Nat)} {name : String} {c : Nat}
    (h : ∀ f ∈ fs, f.1 ≠ name) : setFile fs name c = fs ++ [(name, c)] := by
  unfold setFile
  rw [if_neg]
  simp only [List.any_eq_true, beq_iff_eq, not_exists, not_and]
  intro f hf
  simp [h f hf]

theorem extract_foldl : ∀ (es : List ZEntry) (ex : List String)
    (fs : List (String × Nat)),
    (∀ e ∈ es, ∀ f ∈ fs, decodeName e.filename ≠ f.1) →
    (es.map fun e => decodeName e.filename).Nodup →
    es.foldl extractStep (ex, fs) =
      (ex ++ es.map fun e => decodeName e.filename,
       fs ++ es.map fun e => (decodeName e.filename, e.content)) := by
  intro es
  induction es with
  | nil => intro ex fs _ _; simp
  | cons e es' ih =>
      intro ex fs hdisj hnd
      obtain ⟨hhead, htail⟩ :
          (∀ x ∈ es', ¬ decodeName x.filename = decodeName e.filename) ∧
            (es'.map fun e => decodeName e.filename).Nodup := by simpa using hnd
      have hstep : extractStep (ex, fs) e =
          (ex ++ [decodeName e.filename],
           fs ++ [(decodeName e.filename, e.content)]) := by
        show (ex ++ [decodeName e.filename],
          setFile fs (decodeName e.filename) e.content) = _
        rw [setFile_append]
        intro f hf
        exact fun hfe => hdisj e (List.mem_cons_self e es') f hf hfe.symm
      rw [List.foldl_cons, hstep, ih]
      · simp
      · intro e' he' f hf
        rcases List.mem_append.1 hf with hfs | hlast
        · exact hdisj e' (List.mem_cons_of_mem e he') f hfs
        · have hfe : f = (decodeName e.filename, e.content) := by simpa using hlast
          subst hfe
          exact fun hc => hhead e' he' hc
      · exact htail

theorem matchesExclude_nil (p : String) : matchesExclude p [] = false := rfl

theorem collectFiles_nil_perm (dir : List (String × Nat)) :
    (collectFiles dir []).Perm dir := by
  unfold collectFiles
  refine (List.mergeSort_perm _ _).trans ?_
  rw [List.filter_eq_self.2]
  intro a _
  simp [matchesExclude_nil]

/-- Claim C4 (amended) — Archive round trip: for a directory (of regular
files only) whose relative paths are left unchanged by the extractor's
cp437/UTF-8/cp932 name-decoding chain — in particular any directory with
all-ASCII paths — extracting the artifact produced by `create_zip` with
no excludes into a fresh destination reproduces exactly the original
file set and contents, and `extract_zip` returns the sorted list of
extracted relative paths. -/
theorem archive_roundtrip (dir : List (String × Nat))
    (hnd : (dir.map Prod.fst).Nodup)
    (hdec : ∀ p ∈ dir.map Prod.fst, decodeName p = p) :
    (extractZip (createZip dir []) []).2.Perm dir ∧
    (extractZip (createZip dir []) []).1 = sortStrings (dir.map Prod.fst) := by
  have hcfp : (collectFiles dir []).Perm dir := collectFiles_nil_perm dir
  have hdec' : ∀ x ∈ collectFiles dir [], decodeName x.1 = x.1 := by
    intro x hx
    exact hdec x.1 (List.mem_map_of_mem Prod.fst (hcfp.mem_iff.1 hx))
  have hnames : ((createZip dir []).map fun e => decodeName e.filename) =
      (collectFiles dir []).map Prod.fst := by
    unfold createZip
    rw [List.map_map]
    exact List.map_congr_left fun x hx => hdec' x hx
  have hpairs : ((createZip dir []).map fun e => (decodeName e.filename, e.content)) =
      collectFiles dir [] := by
    unfold createZip
    rw [List.map_map]
    have : ∀ x ∈ collectFiles dir [],
        ((fun e : ZEntry => (decodeName e.filename, e.content)) ∘
          fun e : String × Nat => ZEntry.mk e.1 fixedTimestamp e.2) x = id x := by
      intro x hx
      simp [Function.comp, hdec' x hx]
    rw [List.map_congr_left this, List.map_id]
  have hnodupn : ((createZip dir []).map fun e => decodeName e.filename).Nodup := by
    rw [hnames]
    exact (hnd.perm (hcfp.map Prod.fst).symm).perm (by rfl)
  have hfold := extract_foldl (createZip dir []) [] []
    (by intro e _ f hf; simp at hf) hnodupn
  constructor
  · show (extractZip (createZip dir []) []).2.Perm dir
    unfold extractZip
    rw [hfold]
    simpa [hpairs] using hcfp
  · show (extractZip (createZip dir []) []).1 = sortStrings (dir.map Prod.fst)
    unfold extractZip
    rw [hfold]
    simp only [List.nil_append]
    rw [hnames]
    exact mergeSortStr_eq_of_perm (hcfp.map Prod.fst)
      (hnd.perm (hcfp.map Prod.fst).symm)

/-- Counterexample to C4 as stated: the single-file directory
`{"┬ü" ↦ 7}` has no symlinks or special files, yet `extract_zip`'s name
decoding maps `"┬ü"` (cp437 bytes `C2 81`, which are valid UTF-8 for
U+0081) to `"\u0081"`, so unpacking the packed artifact into a fresh
destination yields a different file set than the original. -/
theorem archive_roundtrip_counterexample :
    (extractZip (createZip [("┬ü", 7)] []) []).1 = ["\u0081"] ∧
    ¬ (extractZip (createZip [("┬ü", 7)] []) []).2.Perm [("┬ü", 7)] := by
  constructor
  · decide
  · decide

/-- Witness for the amended C4 at a concrete two-file ASCII directory. -/
theorem archive_roundtrip_witness :
    ((([("a/b.txt", 1), ("c.txt", 2)] : List (String × Nat)).map Prod.fst).Nodup) ∧
    (∀ p ∈ ([("a/b.txt", 1), ("c.txt", 2)] : List (String × Nat)).map Prod.fst,
        decodeName p = p) ∧
    (extractZip (createZip [("a/b.txt", 1), ("c.txt", 2)] []) []).2.Perm
      [("a/b.txt", 1), ("c.txt", 2)] :=
  ⟨by decide, by decide,
    (archive_roundtrip [("a/b.txt", 1), ("c.txt", 2)] (by decide) (by decide)).1⟩


/-! ## The sync service (`gda/services/sync.py`)

`SyncService` is driven by a GitHub client (`download_asset`) and the
archive service.  We model the remote store as a pure map from URL to the
archive it serves, SHA-256 as an arbitrary function of the artifact, the
destination directory as its file list plus an existence flag and its
subdirectory list, and the private cache directory as its file list plus
an existence flag.  Network traffic is counted explicitly.
-/

/-- `LockedAsset` (gda/models/lockfile.py). -/
structure LockedAsset where
  name : String
  url : String
  sha256 : String
  files : List String
deriving DecidableEq, Repr

/-- A destination directory: whether it exists, its regular files by
relative path, and its subdirectories by relative path. -/
structure DestFS where
  dirExists : Bool
  files : List (String × Nat)
  dirs : List String
deriving DecidableEq, Repr

/-- The private download cache `working_dir/.gda/cache`. -/
structure CacheFS where
  dirExists : Bool
  files : List (String × List ZEntry)
deriving DecidableEq, Repr

/-- `HashMismatchError(asset_name, expected, actual)` (gda/errors.py). -/
structure HashMismatchErr where
  assetName : String
  expected : String
  actual : String
deriving DecidableEq, Repr

/-- Update-or-create a named entry of an association list, the effect of
writing a file at a path. -/
def setEntry {β : Type} (files : List (String × β)) (name : String) (v : β) :
    List (String × β) :=
  if files.any (fun e => e.1 == name) then
    files.map fun e => if e.1 == name then (name, v) else e
  else files ++ [(name, v)]

/-- Delete a named entry, `Path.unlink`. -/
def removeEntry {β : Type} (files : List (String × β)) (name : String) :
    List (String × β) :=
  files.filter fun e => !(e.1 == name)

/-- `(dest_dir / file).exists()`: true if the relative path is a regular
file or a directory under the destination. -/
def destPathExists (d : DestFS) (p : String) : Bool :=
  d.files.any (fun e => e.1 == p) || d.dirs.contains p

/-- `SyncService.verify_asset`: true iff the recorded file list is
non-empty, the destination exists, and every listed path exists under
it. -/
def verifyAsset (asset : LockedAsset) (d : DestFS) : Bool :=
  !asset.files.isEmpty && d.dirExists && asset.files.all (destPathExists d)

/-- Auxiliary join of path components with `/`. -/
def joinSlashChars : List (List Char) → List Char
  | [] => []
  | [x] => x
  | x :: xs => x ++ '/' :: joinSlashChars xs

/-- `str(file_path.relative_to(directory).parent)`-like parent of a
`/`-separated relative path; the parent of a single-component path is the
empty string (the destination root itself). -/
def parentDir (p : String) : String :=
  String.mk (joinSlashChars ((splitSlash p.data).dropLast))

/-- The ancestor directories a file write creates
(`target.parent.mkdir(parents=True)`). -/
def ancestorsOf (p : String) : List String :=
  let cs := splitSlash p.data
  (List.range (cs.length - 1)).map fun k => String.mk (joinSlashChars (cs.take (k + 1)))

/-- All directories implied by a set of extracted file paths. -/
def dirsOf (names : List String) : List String :=
  (names.flatMap ancestorsOf).dedup

/-- The outcome of `SyncService.pull_asset`: its return value or raised
error, the resulting destination and cache state, and how many network
downloads were performed. -/
structure PullOutcome where
  result : Except HashMismatchErr (List String)
  dest : DestFS
  cache : CacheFS
  downloads : Nat

/-- `SyncService.pull_asset(asset, dest_dir, force)` over the modelled
state: early return on a verify hit; otherwise create the cache dir,
download `{asset.name}.zip`, compare the hash against the lock, on
mismatch delete the download and raise, on match clear and re-extract the
destination, always deleting the download and removing the cache dir when
it ends up empty. -/
def pullAsset (hash : List ZEntry → String) (remote : String → List ZEntry)
    (asset : LockedAsset) (force : Bool) (dest : DestFS) (cache : CacheFS) :
    PullOutcome :=
  if !force && verifyAsset asset dest then
    ⟨.ok asset.files, dest, cache, 0⟩
  else
    let zipName := asset.name ++ ".zip"
    let art := remote asset.url
    let cacheFiles := setEntry cache.files zipName art
    let actual := hash art
    if actual ≠ asset.sha256 then
      ⟨.error ⟨asset.name, asset.sha256, actual⟩, dest,
        ⟨true, removeEntry cacheFiles zipName⟩, 1⟩
    else
      let extracted := extractZip art []
      let dest' : DestFS := ⟨true, extracted.2, dirsOf (extracted.2.map Prod.fst)⟩
      let cacheFiles' := removeEntry cacheFiles zipName
      ⟨.ok extracted.1, dest', ⟨!cacheFiles'.isEmpty, cacheFiles'⟩, 1⟩

theorem removeEntry_setEntry_nil {β : Type} (n : String) (v : β) :
    removeEntry (setEntry ([] : List (String × β)) n v) n = [] := by
  simp [setEntry, removeEntry]

/-- Claim C2 — Hash-mismatch safety: whenever `pull_asset` actually
downloads (it is forced or verification fails) and the downloaded
artifact's digest differs from the lock's, it raises a hash-mismatch
error carrying the expected and the actual digest, the destination is
left exactly as it was, and the cache holds no files afterwards (the
cached download is deleted). -/
theorem pull_hash_mismatch (hash : List ZEntry → String)
    (remote : String → List ZEntry) (asset : LockedAsset) (force : Bool)
    (dest : DestFS) (cache : CacheFS)
    (hrun : force = true ∨ verifyAsset asset dest = false)
    (hmm : hash (remote asset.url) ≠ asset.sha256)
    (hcache : cache.files = []) :
    (pullAsset hash remote asset force dest cache).result =
      .error ⟨asset.name, asset.sha256, hash (remote asset.url)⟩ ∧
    (pullAsset hash remote asset force dest cache).dest = dest ∧
    (pullAsset hash remote asset force dest cache).cache.files = [] := by
  have hguard : (!force && verifyAsset asset dest) = false := by
    rcases hrun with h | h <;> simp [h]
  unfold pullAsset
  rw [hguard]
  simp only [Bool.false_eq_true, if_false, if_pos hmm]
  exact ⟨trivial, trivial, by rw [hcache]; exact removeEntry_setEntry_nil _ _⟩

/-- Witness for C2 with a one-file lock, an empty destination and a
remote that serves an artifact whose (here: constantly "deadbeef") digest
differs from the locked digest. -/
theorem pull_hash_mismatch_witness :
    ((true : Bool) = true ∨ verifyAsset ⟨"data", "u", "abc", ["f.txt"]⟩
        ⟨false, [], []⟩ = false) ∧
    ((fun _ : List ZEntry => "deadbeef") ((fun _ : String => ([] : List ZEntry)) "u")
        ≠ "abc") ∧
    (pullAsset (fun _ => "deadbeef") (fun _ => [])
        ⟨"data", "u", "abc", ["f.txt"]⟩ true ⟨false, [], []⟩ ⟨false, []⟩).result =
      .error ⟨"data", "abc", "deadbeef"⟩ := by
  refine ⟨Or.inl rfl, by decide, ?_⟩
  exact (pull_hash_mismatch (fun _ => "deadbeef") (fun _ => [])
    ⟨"data", "u", "abc", ["f.txt"]⟩ true ⟨false, [], []⟩ ⟨false, []⟩
    (Or.inl rfl) (by decide) rfl).1

/-- Claim C3 — Idempotent pull: when `force` is false and `verify_asset`
succeeds (non-empty recorded file list, existing destination, every
listed path present), `pull_asset` performs no network download, changes
neither destination nor cache, and returns the recorded file list; a
second identical call returns the same list. -/
theorem pull_idempotent (hash : List ZEntry → String)
    (remote : String → List ZEntry) (asset : LockedAsset)
    (dest : DestFS) (cache : CacheFS)
    (hv : verifyAsset asset dest = true) :
    (pullAsset hash remote asset false dest cache).result = .ok asset.files ∧
    (pullAsset hash remote asset false dest cache).dest = dest ∧
    (pullAsset hash remote asset false dest cache).cache = cache ∧
    (pullAsset hash remote asset false dest cache).downloads = 0 ∧
    (pullAsset hash remote asset false
        (pullAsset hash remote asset false dest cache).dest
        (pullAsset hash remote asset false dest cache).cache).result =
      .ok asset.files := by
  unfold pullAsset
  simp [hv]

/-- Witness for C3: a verified asset is returned untouched twice. -/
theorem pull_idempotent_witness :
    verifyAsset ⟨"data", "u", "abc", ["f.txt"]⟩
        ⟨true, [("f.txt", 5)], []⟩ = true ∧
    (pullAsset (fun _ => "abc") (fun _ => [])
        ⟨"data", "u", "abc", ["f.txt"]⟩ false
        ⟨true, [("f.txt", 5)], []⟩ ⟨false, []⟩).downloads = 0 := by
  refine ⟨by decide, ?_⟩
  exact (pull_idempotent (fun _ => "abc") (fun _ => [])
    ⟨"data", "u", "abc", ["f.txt"]⟩ ⟨true, [("f.txt", 5)], []⟩ ⟨false, []⟩
    (by decide)).2.2.2.1


/-! ## Manifest model and the resolve command (`gda/commands/resolve.py`)

The remote store is consumed through `get_release` (one call) and
`get_asset_hash` (one call per matched asset), both of which may fail;
they are modelled as `Except`-valued parameters.  `_resolve_impl` builds
the whole locked-asset map first and calls `lockfile.save` exactly once
afterwards, so the list of lockfiles written is `[lock]` on success and
`[]` on any propagated error.
-/

/-- A release asset as returned by the GitHub client. -/
structure ReleaseAsset where
  name : String
  url : String
deriving DecidableEq, Repr

/-- A release as returned by `get_release`. -/
structure Release where
  id : Nat
  name : String
  assets : List ReleaseAsset
deriving DecidableEq, Repr

/-- A manifest asset (gda/models/manifest.py). -/
structure Asset where
  name : String
  source : String
  destination : String
  excludes : List String
deriving DecidableEq, Repr

/-- The manifest; the assets mapping is an insertion-ordered association
list, as a Python dict. -/
structure Manifest where
  repository : String
  version : String
  assets : List (String × Asset)
deriving DecidableEq, Repr

/-- The lockfile; same ordered-mapping convention. -/
structure Lockfile where
  version : String
  assets : List (String × LockedAsset)
deriving DecidableEq, Repr

/-- `release_assets = {asset.name: asset for asset in release.assets}`:
a duplicate name keeps the last occurrence, hence the reversed search. -/
def lookupRelease (l : List ReleaseAsset) (n : String) : Option ReleaseAsset :=
  l.reverse.find? fun a => a.name == n

/-- The per-asset loop of `_resolve_impl`: skip a manifest asset whose
`{name}.zip` is absent from the release; otherwise fetch its hash (a
failure propagates immediately) and record `{name, url, sha256, files: []}`. -/
def resolveAssets {ε : Type} (rel : List ReleaseAsset)
    (getAssetHash : String → Except ε String) :
    List (String × Asset) → Except ε (List (String × LockedAsset))
  | [] => .ok []
  | (name, _) :: rest =>
      match lookupRelease rel (name ++ ".zip") with
      | none => resolveAssets rel getAssetHash rest
      | some ra =>
          match getAssetHash ra.url with
          | .error e => .error e
          | .ok sha =>
              match resolveAssets rel getAssetHash rest with
              | .error e => .error e
              | .ok locked => .ok ((name, ⟨name, ra.url, sha, []⟩) :: locked)

/-- `_resolve_impl` up to the single `lockfile.save`: the lockfile it
would write, or the propagated error. -/
def resolveImpl {ε : Type} (getRelease : Except ε Release)
    (getAssetHash : String → Except ε String) (m : Manifest) :
    Except ε Lockfile :=
  match getRelease with
  | .error e => .error e
  | .ok release =>
      match resolveAssets release.assets getAssetHash m.assets with
      | .error e => .error e
      | .ok locked => .ok ⟨m.version, locked⟩

/-- The lockfiles `_resolve_impl` writes: exactly one, after every lookup
has completed; none when anything propagated. -/
def resolveWrites {ε : Type} (getRelease : Except ε Release)
    (getAssetHash : String → Except ε String) (m : Manifest) : List Lockfile :=
  match resolveImpl getRelease getAssetHash m with
  | .ok l => [l]
  | .error _ => []

theorem resolveAssets_ok_lookup {ε : Type} {rel : List ReleaseAsset}
    {gh : String → Except ε String} :
    ∀ {as : List (String × Asset)} {locked : List (String × LockedAsset)},
    resolveAssets rel gh as = .ok locked →
    ∀ n la, (n, la) ∈ locked → lookupRelease rel (n ++ ".zip") ≠ none := by
  intro as
  induction as with
  | nil =>
      intro locked h n la hmem
      simp only [resolveAssets, Except.ok.injEq] at h
      subst h
      simp at hmem
  | cons p rest ih =>
      intro locked h n la hmem
      obtain ⟨name, a⟩ := p
      simp only [resolveAssets] at h
      match hlk : lookupRelease rel (name ++ ".zip") with
      | none =>
          rw [hlk] at h
          dsimp only at h
          exact ih h n la hmem
      | some ra =>
          rw [hlk] at h
          dsimp only at h
          match hgh : gh ra.url with
          | .error e => rw [hgh] at h; simp at h
          | .ok sha =>
              rw [hgh] at h
              dsimp only at h
              match hrest : resolveAssets rel gh rest with
              | .error e => rw [hrest] at h; simp at h
              | .ok locked0 =>
                  rw [hrest] at h
                  simp only [Except.ok.injEq] at h
                  subst h
                  rcases List.mem_cons.1 hmem with hh | ht
                  · have hn : n = name := (Prod.mk.injEq .. ▸ hh).1
                    subst hn
                    rw [hlk]
                    simp
                  · exact ih hrest n la ht

theorem resolveAssets_error_of_failing {ε : Type} {rel : List ReleaseAsset}
    {gh : String → Except ε String} :
    ∀ {as : List (String × Asset)},
    (∃ p ∈ as, ∃ ra, lookupRelease rel (p.1 ++ ".zip") = some ra ∧
        ∃ e, gh ra.url = .error e) →
    ∃ e, resolveAssets rel gh as = .error e := by
  intro as
  induction as with
  | nil => intro h; simp at h
  | cons p rest ih =>
      intro h
      obtain ⟨name, a⟩ := p
      simp only [resolveAssets]
      match hlk : lookupRelease rel (name ++ ".zip") with
      | none =>
          dsimp only
          apply ih
          obtain ⟨q, hq, ra, hra, e, he⟩ := h
          rcases List.mem_cons.1 hq with hh | ht
          · subst hh; rw [hlk] at hra; simp at hra
          · exact ⟨q, ht, ra, hra, e, he⟩
      | some ra =>
          dsimp only
          match hgh : gh ra.url with
          | .error e => exact ⟨e, rfl⟩
          | .ok sha =>
              dsimp only
              have h' : ∃ p ∈ rest, ∃ ra, lookupRelease rel (p.1 ++ ".zip") = some ra ∧
                  ∃ e, gh ra.url = .error e := by
                obtain ⟨q, hq, ra', hra', e, he⟩ := h
                rcases List.mem_cons.1 hq with hh | ht
                · subst hh
                  rw [hlk] at hra'
                  obtain rfl : ra = ra' := by simpa using hra'
                  rw [hgh] at he
                  simp at he
                · exact ⟨q, ht, ra', hra', e, he⟩
              obtain ⟨e, he⟩ := ih h'
              rw [he]
              exact ⟨e, rfl⟩

theorem resolveAssets_ok_of_all_ok {ε : Type} {rel : List ReleaseAsset}
    {gh : String → Except ε String} :
    ∀ {as : List (String × Asset)},
    (∀ p ∈ as, ∀ ra, lookupRelease rel (p.1 ++ ".zip") = some ra →
        ∃ sha, gh ra.url = .ok sha) →
    ∃ locked, resolveAssets rel gh as = .ok locked := by
  intro as
  induction as with
  | nil => intro _; exact ⟨[], rfl⟩
  | cons p rest ih =>
      intro h
      obtain ⟨name, a⟩ := p
      simp only [resolveAssets]
      match hlk : lookupRelease rel (name ++ ".zip") with
      | none =>
          dsimp only
          exact ih fun q hq => h q (List.mem_cons_of_mem _ hq)
      | some ra =>
          dsimp only
          obtain ⟨sha, hsha⟩ := h (name, a) (List.mem_cons_self _ _) ra hlk
          rw [hsha]
          dsimp only
          obtain ⟨locked, hlocked⟩ := ih fun q hq => h q (List.mem_cons_of_mem _ hq)
          rw [hlocked]
          exact ⟨_, rfl⟩

/-- Claim C6 — Resolve atomicity and benign skip: an error from
`get_release` aborts resolve with no lockfile written; given a release,
a manifest asset whose `{name}.zip` is absent is skipped and never
appears in any written lock; an error from a hash fetch of any matched
asset aborts resolve with no lockfile written; and when every matched
asset's hash fetch succeeds the resolve writes exactly one lockfile, at
the manifest's version, after all lookups (missing assets are
non-fatal). -/
theorem resolve_atomicity {ε : Type} (getRelease : Except ε Release)
    (gh : String → Except ε String) (m : Manifest) :
    (∀ e, getRelease = .error e → resolveWrites getRelease gh m = []) ∧
    (∀ r, getRelease = .ok r →
      ((∀ name asset, (name, asset) ∈ m.assets →
          lookupRelease r.assets (name ++ ".zip") = none →
          ∀ l ∈ resolveWrites getRelease gh m, ∀ la, (name, la) ∉ l.assets) ∧
       ((∃ p ∈ m.assets, ∃ ra, lookupRelease r.assets (p.1 ++ ".zip") = some ra ∧
            ∃ e, gh ra.url = .error e) →
          resolveWrites getRelease gh m = []) ∧
       ((∀ p ∈ m.assets, ∀ ra, lookupRelease r.assets (p.1 ++ ".zip") = some ra →
            ∃ sha, gh ra.url = .ok sha) →
          ∃ l, resolveWrites getRelease gh m = [l] ∧ l.version = m.version))) := by
  constructor
  · intro e he
    unfold resolveWrites resolveImpl
    rw [he]
  · intro r hr
    refine ⟨?_, ?_, ?_⟩
    · intro name asset hmem hnone l hl la hla
      unfold resolveWrites resolveImpl at hl
      rw [hr] at hl
      dsimp only at hl
      match hres : resolveAssets r.assets gh m.assets with
      | .error e => rw [hres] at hl; simp at hl
      | .ok locked =>
          rw [hres] at hl
          dsimp only at hl
          obtain rfl : l = ⟨m.version, locked⟩ := by simpa using hl
          exact resolveAssets_ok_lookup hres name la hla hnone
    · intro hfail
      obtain ⟨e, he⟩ := resolveAssets_error_of_failing hfail
      unfold resolveWrites resolveImpl
      rw [hr]
      dsimp only
      rw [he]
    · intro hok
      obtain ⟨locked, hlocked⟩ := resolveAssets_ok_of_all_ok hok
      refine ⟨⟨m.version, locked⟩, ?_, rfl⟩
      unfold resolveWrites resolveImpl
      rw [hr]
      dsimp only
      rw [hlocked]

/-- Witness for C6: a failing release lookup writes nothing. -/
theorem resolve_atomicity_witness :
    resolveWrites (Except.error "network down")
      (fun _ => Except.ok "abc")
      ⟨"o/r", "v1", [("data", ⟨"data", "data", "out", []⟩)]⟩ = [] :=
  (resolve_atomicity (Except.error "network down") (fun _ => Except.ok "abc")
    ⟨"o/r", "v1", [("data", ⟨"data", "data", "out", []⟩)]⟩).1 "network down" rfl

/-! ## The push command (`gda/commands/push.py`) -/

/-- `str(Path(s).name)`, the final `/`-separated component of a path. -/
def pathBasename (s : String) : String := String.mk (lastComp s.data)

/-- The build loop of `_push_impl`: for each manifest asset whose source
directory exists, build the archive at `build_dir / f"{asset.source}.zip"`.
The name later uploaded is `zip_path.name` — the final path component of
that file, `basename(source) ++ ".zip"` (for a slash-free source this is
`source ++ ".zip"`). -/
def pushBuildArchives (srcExists : String → Bool) (m : Manifest) :
    List (String × String) :=
  m.assets.filterMap fun p =>
    if srcExists p.2.source then some (p.1, pathBasename p.2.source ++ ".zip")
    else none

/-- The upload loop of `_push_impl`: an archive whose name already exists
on the release is skipped unless `--force`; the rest are uploaded under
their zip file name. -/
def pushUploadNames (existing : List String) (force : Bool)
    (archives : List (String × String)) : List String :=
  archives.filterMap fun p =>
    if existing.contains p.2 && !force then none else some p.2

/-- Counterexample to C10 as stated: the manifest asset keyed `"b"` with
`source = "a/b"` is packed at `build/a/b.zip` and uploaded under
`zip_path.name = "b.zip"`, not `"a/b.zip"`; resolve, looking key `"b"`
up as `"b.zip"`, finds that uploaded artifact although the asset's
source differs from its name. -/
theorem push_resolve_name_counterexample :
    pushBuildArchives (fun _ => true)
        ⟨"o/r", "v1", [("b", ⟨"b", "a/b", "out", []⟩)]⟩ = [("b", "b.zip")] ∧
    ("b.zip" : String) ≠ "a/b" ++ ".zip" ∧
    lookupRelease [⟨"b.zip", "u"⟩] ("b" ++ ".zip") = some ⟨"b.zip", "u"⟩ ∧
    ("a/b" : String) ≠ "b" := by
  exact ⟨rfl, by decide, rfl, by decide⟩

/-- Claim C10 (amended) — Push/resolve asset-name agreement: push packs
a manifest asset at `build/{source}.zip` and uploads it under that
file's base name, `basename(source) ++ ".zip"`; resolve admits a locked
entry for key `name` only when `{name}.zip` exists on the release; and
the two file names coincide exactly when `basename(source) = name` — so
an asset pushed by this program is found by resolve under its key
exactly when the base name of its source equals its name (for slash-free
sources: when source equals name). -/
theorem push_resolve_name_agreement (srcExists : String → Bool) (m : Manifest)
    (name : String) (asset : Asset) (hmem : (name, asset) ∈ m.assets)
    (hsrc : srcExists asset.source = true) :
    (name, pathBasename asset.source ++ ".zip") ∈ pushBuildArchives srcExists m ∧
    (∀ existing, (name, pathBasename asset.source ++ ".zip") ∈
        pushBuildArchives srcExists m →
        pathBasename asset.source ++ ".zip" ∈ pushUploadNames existing true
          (pushBuildArchives srcExists m)) ∧
    (∀ (ε : Type) (rel : List ReleaseAsset) (gh : String → Except ε String)
        (locked : List (String × LockedAsset)),
        resolveAssets rel gh m.assets = .ok locked →
        ∀ la, (name, la) ∈ locked → lookupRelease rel (name ++ ".zip") ≠ none) ∧
    ((pathBasename asset.source ++ ".zip" = name ++ ".zip") ↔
        pathBasename asset.source = name) := by
  refine ⟨?_, ?_, ?_, ?_⟩
  · exact List.mem_filterMap.2 ⟨(name, asset), hmem, by rw [hsrc]; rfl⟩
  · intro existing hbuilt
    refine List.mem_filterMap.2
      ⟨(name, pathBasename asset.source ++ ".zip"), hbuilt, ?_⟩
    simp
  · intro ε rel gh locked hres la hla
    exact resolveAssets_ok_lookup hres name la hla
  · constructor
    · intro h
      have hd := congrArg String.data h
      simp only [String.data_append] at hd
      have h₂ := List.append_cancel_right hd
      exact String.ext h₂
    · intro h; rw [h]

/-- Witness for the amended C10 at a manifest whose single asset has the
slash-free `source = "src-dir"` and key `"data"`. -/
theorem push_resolve_name_agreement_witness :
    (("data", ⟨"data", "src-dir", "out", []⟩) ∈
        (⟨"o/r", "v1", [("data", ⟨"data", "src-dir", "out", []⟩)]⟩ : Manifest).assets) ∧
    (fun _ : String => true) "src-dir" = true ∧
    ("data", pathBasename "src-dir" ++ ".zip") ∈ pushBuildArchives (fun _ => true)
        ⟨"o/r", "v1", [("data", ⟨"data", "src-dir", "out", []⟩)]⟩ ∧
    ((pathBasename "src-dir" ++ ".zip" = "data" ++ ".zip") ↔
        pathBasename "src-dir" = "data") := by
  refine ⟨by decide, rfl, ?_, ?_⟩
  · exact (push_resolve_name_agreement (fun _ => true)
      ⟨"o/r", "v1", [("data", ⟨"data", "src-dir", "out", []⟩)]⟩ "data"
      ⟨"data", "src-dir", "out", []⟩ (by decide) rfl).1
  · exact (push_resolve_name_agreement (fun _ => true)
      ⟨"o/r", "v1", [("data", ⟨"data", "src-dir", "out", []⟩)]⟩ "data"
      ⟨"data", "src-dir", "out", []⟩ (by decide) rfl).2.2.2

/-! ## Serialisation round trip (`gda/models/manifest.py`, `lockfile.py`)

Both models serialise to a tree of strings, lists and string-keyed
mappings (vía `yaml.dump` / `json.dumps`) and parse from the same tree
(`yaml.safe_load` / `json.loads`); for the trees these serialisers emit,
dump-then-load is the identity on the tree, so the text layer is modelled
as the identity and the round trip is settled on the tree.  Parse errors
carry abbreviated tags in place of the Python message texts; branches
marked `modelled-restriction` are reachable only on trees whose field has
a non-string type that the Lean model of the dataclass cannot represent,
and are never hit by the serialisers.
-/

/-- A YAML/JSON value as used by the two models. -/
inductive YVal where
  | str (s : String)
  | list (l : List YVal)
  | map (m : List (String × YVal))

/-- `data.get(key)` on a parsed mapping. -/
def yGet (m : List (String × YVal)) (k : String) : Option YVal :=
  (m.find? fun p => p.1 == k).map fun p => p.2

/-- Python truthiness of an optional field: absent, the empty string, an
empty list and an empty mapping are falsy. -/
def isFalsy : Option YVal → Bool
  | none => true
  | some (.str s) => s == ""
  | some (.list l) => l.isEmpty
  | some (.map m) => m.isEmpty

/-- Read back a serialised string list. -/
def strList : List YVal → Option (List String)
  | [] => some []
  | .str s :: rest => (strList rest).map fun xs => s :: xs
  | _ => none

/-- The per-asset fragment `Manifest.save` writes: `source` and
`destination` always, `excludes` only when non-empty. -/
def assetToDict (a : Asset) : YVal :=
  .map ([("source", .str a.source), ("destination", .str a.destination)] ++
    (if a.excludes.isEmpty then [] else [("excludes", .list (a.excludes.map .str))]))

/-- `Manifest.save`: repository, version, and the asset mapping in
insertion order. -/
def manifestToDict (m : Manifest) : YVal :=
  .map [("repository", .str m.repository), ("version", .str m.version),
    ("assets", .map (m.assets.map fun p => (p.1, assetToDict p.2)))]

/-- The per-asset branch of `Manifest._from_dict`: `source` defaults to
the asset name when absent or falsy, `destination` is required, a present
`excludes` must be a list. -/
def parseAsset (name : String) (spec : YVal) : Except String Asset :=
  match spec with
  | .map sm =>
      let sourceE : Except String String :=
        match yGet sm "source" with
        | some (.str s) => .ok (if s = "" then name else s)
        | none => .ok name
        | some (.list l) =>
            if l.isEmpty then .ok name else .error "modelled-restriction-source"
        | some (.map mm) =>
            if mm.isEmpty then .ok name else .error "modelled-restriction-source"
      match sourceE with
      | .error e => .error e
      | .ok source =>
          if isFalsy (yGet sm "destination") then
            .error ("missing-destination: " ++ name)
          else
            match yGet sm "destination" with
            | some (.str destination) =>
                match yGet sm "excludes" with
                | none => .ok ⟨name, source, destination, []⟩
                | some (.list l) =>
                    match strList l with
                    | some xs => .ok ⟨name, source, destination, xs⟩
                    | none => .error "modelled-restriction-excludes"
                | some _ => .error ("excludes-not-a-list: " ++ name)
            | _ => .error "modelled-restriction-destination"
  | _ => .error ("asset-not-a-mapping: " ++ name)

/-- The asset loop of `Manifest._from_dict` over the raw mapping. -/
def parseAssetsList : List (String × YVal) → Except String (List (String × Asset))
  | [] => .ok []
  | (name, spec) :: rest =>
      match parseAsset name spec with
      | .error e => .error e
      | .ok a =>
          match parseAssetsList rest with
          | .error e => .error e
          | .ok as => .ok ((name, a) :: as)

/-- `Manifest._from_dict`. -/
def manifestFromDict (v : YVal) : Except String Manifest :=
  match v with
  | .map data =>
      if isFalsy (yGet data "repository") then .error "missing-repository"
      else
        match yGet data "repository" with
        | some (.str repository) =>
            if isFalsy (yGet data "version") then .error "missing-version"
            else
              match yGet data "version" with
              | some (.str version) =>
                  match yGet data "assets" with
                  | none => .ok ⟨repository, version, []⟩
                  | some (.map raw) =>
                      match parseAssetsList raw with
                      | .error e => .error e
                      | .ok assets => .ok ⟨repository, version, assets⟩
                  | some _ => .error "assets-not-a-mapping"
              | _ => .error "modelled-restriction-version"
        | _ => .error "modelled-restriction-repository"
  | _ => .error "root-not-a-mapping"

/-- The per-asset fragment `Lockfile.save` writes: url, sha256 and files,
always. -/
def lockedToDict (a : LockedAsset) : YVal :=
  .map [("url", .str a.url), ("sha256", .str a.sha256),
    ("files", .list (a.files.map .str))]

/-- `Lockfile.save`. -/
def lockfileToDict (l : Lockfile) : YVal :=
  .map [("version", .str l.version),
    ("assets", .map (l.assets.map fun p => (p.1, lockedToDict p.2)))]

/-- The per-asset branch of `Lockfile._from_dict`: `url` and `sha256` are
required, a missing `files` defaults to the empty list. -/
def parseLockedAsset (name : String) (spec : YVal) : Except String LockedAsset :=
  match spec with
  | .map sm =>
      if isFalsy (yGet sm "url") then .error ("missing-url: " ++ name)
      else
        match yGet sm "url" with
        | some (.str url) =>
            if isFalsy (yGet sm "sha256") then .error ("missing-sha256: " ++ name)
            else
              match yGet sm "sha256" with
              | some (.str sha) =>
                  match yGet sm "files" with
                  | none => .ok ⟨name, url, sha, []⟩
                  | some (.list l) =>
                      match strList l with
                      | some fs => .ok ⟨name, url, sha, fs⟩
                      | none => .error "modelled-restriction-files"
                  | some _ => .error ("files-not-a-list: " ++ name)
              | _ => .error "modelled-restriction-sha256"
        | _ => .error "modelled-restriction-url"
  | _ => .error ("locked-asset-not-an-object: " ++ name)

/-- The asset loop of `Lockfile._from_dict`. -/
def parseLockedList : List (String × YVal) → Except String (List (String × LockedAsset))
  | [] => .ok []
  | (name, spec) :: rest =>
      match parseLockedAsset name spec with
      | .error e => .error e
      | .ok a =>
          match parseLockedList rest with
          | .error e => .error e
          | .ok as => .ok ((name, a) :: as)

/-- `Lockfile._from_dict`. -/
def lockfileFromDict (v : YVal) : Except String Lockfile :=
  match v with
  | .map data =>
      if isFalsy (yGet data "version") then .error "missing-version"
      else
        match yGet data "version" with
        | some (.str version) =>
            match yGet data "assets" with
            | none => .ok ⟨version, []⟩
            | some (.map raw) =>
                match parseLockedList raw with
                | .error e => .error e
                | .ok assets => .ok ⟨version, assets⟩
            | some _ => .error "assets-not-an-object"
        | _ => .error "modelled-restriction-version"
  | _ => .error "root-not-an-object"

/-- A Manifest the dataclass invariants and serialiser can represent
faithfully: non-empty repository, version, per-asset source and
destination, and each asset record carrying its own map key as name. -/
def ManifestValid (m : Manifest) : Prop :=
  m.repository ≠ "" ∧ m.version ≠ "" ∧
    ∀ p ∈ m.assets, p.2.name = p.1 ∧ p.2.source ≠ "" ∧ p.2.destination ≠ ""

/-- A Lockfile the serialiser round-trips: non-empty version, url and
sha256, each asset record carrying its map key as name. -/
def LockfileValid (l : Lockfile) : Prop :=
  l.version ≠ "" ∧
    ∀ p ∈ l.assets, p.2.name = p.1 ∧ p.2.url ≠ "" ∧ p.2.sha256 ≠ ""

theorem strList_map (l : List String) : strList (l.map .str) = some l := by
  induction l with
  | nil => rfl
  | cons x xs ih => simp [strList, ih]

theorem parseAsset_roundtrip {name : String} {a : Asset}
    (hname : a.name = name) (hsrc : a.source ≠ "") (hdst : a.destination ≠ "") :
    parseAsset name (assetToDict a) = .ok a := by
  obtain ⟨n, s, d, ex⟩ := a
  simp only at hname hsrc hdst
  subst hname
  rcases hex : ex with _ | ⟨x, xs⟩
  · simp +decide [parseAsset, assetToDict, yGet, isFalsy, if_neg hsrc,
      beq_eq_false_iff_ne.2 hdst]
  · simp +decide [parseAsset, assetToDict, yGet, isFalsy, if_neg hsrc,
      beq_eq_false_iff_ne.2 hdst]
    rw [← List.map_cons YVal.str x xs, strList_map]

theorem parseAssetsList_roundtrip {as : List (String × Asset)}
    (h : ∀ p ∈ as, p.2.name = p.1 ∧ p.2.source ≠ "" ∧ p.2.destination ≠ "") :
    parseAssetsList (as.map fun p => (p.1, assetToDict p.2)) = .ok as := by
  induction as with
  | nil => rfl
  | cons p rest ih =>
      obtain ⟨hn, hs, hd⟩ := h p (List.mem_cons_self _ _)
      simp only [List.map_cons, parseAssetsList, parseAsset_roundtrip hn hs hd,
        ih fun q hq => h q (List.mem_cons_of_mem _ hq)]

theorem parseLockedAsset_roundtrip {name : String} {a : LockedAsset}
    (hname : a.name = name) (hurl : a.url ≠ "") (hsha : a.sha256 ≠ "") :
    parseLockedAsset name (lockedToDict a) = .ok a := by
  obtain ⟨n, u, s, fs⟩ := a
  simp only at hname hurl hsha
  subst hname
  simp +decide [parseLockedAsset, lockedToDict, yGet, isFalsy,
    beq_eq_false_iff_ne.2 hurl, beq_eq_false_iff_ne.2 hsha, strList_map]

theorem parseLockedList_roundtrip {as : List (String × LockedAsset)}
    (h : ∀ p ∈ as, p.2.name = p.1 ∧ p.2.url ≠ "" ∧ p.2.sha256 ≠ "") :
    parseLockedList (as.map fun p => (p.1, lockedToDict p.2)) = .ok as := by
  induction as with
  | nil => rfl
  | cons p rest ih =>
      obtain ⟨hn, hu, hs⟩ := h p (List.mem_cons_self _ _)
      simp only [List.map_cons, parseLockedList, parseLockedAsset_roundtrip hn hu hs,
        ih fun q hq => h q (List.mem_cons_of_mem _ hq)]

/-- Claim C9 — Model round-trip laws: parsing the serialised form of a
valid Manifest yields the Manifest back (same repository, version and
per-asset name, source, destination, excludes); likewise a valid
Lockfile (same version and per-asset name, url, sha256, files). -/
theorem model_roundtrip (m : Manifest) (l : Lockfile)
    (hm : ManifestValid m) (hl : LockfileValid l) :
    manifestFromDict (manifestToDict m) = .ok m ∧
    lockfileFromDict (lockfileToDict l) = .ok l := by
  obtain ⟨hmr, hmv, hma⟩ := hm
  obtain ⟨hlv, hla⟩ := hl
  constructor
  · obtain ⟨r, v, as⟩ := m
    simp only at hmr hmv hma
    simp +decide [manifestFromDict, manifestToDict, yGet, isFalsy,
      beq_eq_false_iff_ne.2 hmr, beq_eq_false_iff_ne.2 hmv,
      parseAssetsList_roundtrip hma]
  · obtain ⟨v, as⟩ := l
    simp only at hlv hla
    simp +decide [lockfileFromDict, lockfileToDict, yGet, isFalsy,
      beq_eq_false_iff_ne.2 hlv, parseLockedList_roundtrip hla]

/-- Witness for C9 at a concrete one-asset manifest and lockfile. -/
theorem model_roundtrip_witness :
    ManifestValid ⟨"o/r", "v1", [("data", ⟨"data", "data", "out", ["**/.DS_Store"]⟩)]⟩ ∧
    LockfileValid ⟨"v1", [("data", ⟨"data", "https://u", "abc", ["f.txt"]⟩)]⟩ ∧
    manifestFromDict (manifestToDict
      ⟨"o/r", "v1", [("data", ⟨"data", "data", "out", ["**/.DS_Store"]⟩)]⟩) =
      .ok ⟨"o/r", "v1", [("data", ⟨"data", "data", "out", ["**/.DS_Store"]⟩)]⟩ :=
  ⟨by constructor; · decide
      constructor; · decide
      intro p hp
      simp only [List.mem_singleton] at hp
      subst hp
      exact ⟨rfl, by decide, by decide⟩,
   by constructor; · decide
      intro p hp
      simp only [List.mem_singleton] at hp
      subst hp
      exact ⟨rfl, by decide, by decide⟩,
   (model_roundtrip
      ⟨"o/r", "v1", [("data", ⟨"data", "data", "out", ["**/.DS_Store"]⟩)]⟩
      ⟨"v1", [("data", ⟨"data", "https://u", "abc", ["f.txt"]⟩)]⟩
      (by constructor; · decide
          constructor; · decide
          intro p hp
          simp only [List.mem_singleton] at hp
          subst hp
          exact ⟨rfl, by decide, by decide⟩)
      (by constructor; · decide
          intro p hp
          simp only [List.mem_singleton] at hp
          subst hp
          exact ⟨rfl, by decide, by decide⟩)).1⟩


/-! ## Pruning (`SyncService._prune_directory`)

The second loop of `_prune_directory` materialises the directory tree
(reverse-sorted, so a subdirectory is visited before its parent), then
removes each directory that is empty when visited.  `Path.iterdir`
emptiness is "no remaining file and no remaining directory has this
directory as its direct parent".
-/

/-- `any(dir_path.iterdir())`: the directory has a direct child among the
remaining files or the remaining directories. -/
def hasChildIn (d : String) (ds : List String) (files : List (String × Nat)) : Bool :=
  files.any (fun e => parentDir e.1 == d) || ds.any fun x => parentDir x == d

/-- Visit one directory of the sweep: delete it if it still exists and is
empty. -/
def pruneStepDir (files : List (String × Nat)) (ds : List String) (d : String) :
    List String :=
  if ds.contains d && !(hasChildIn d ds files) then ds.erase d else ds

/-- `sorted(directory.rglob("*"), reverse=True)` restricted to the
directories (file entries fail the `is_dir` check). -/
def pruneOrder (dirs : List String) : List String :=
  (dirs.mergeSort strLe).reverse

/-- The empty-directory sweep of `_prune_directory`. -/
def pruneDirs (files : List (String × Nat)) (dirs : List String) : List String :=
  (pruneOrder dirs).foldl (pruneStepDir files) dirs

/-- `SyncService._prune_directory(directory, keep_files)`: delete every
regular file whose relative path is not in the keep set, then delete the
directories left empty, deepest first.  A missing directory is left
untouched. -/
def pruneDirectory (keep : List String) (dest : DestFS) : DestFS :=
  if dest.dirExists then
    let files2 := dest.files.filter fun e => keep.contains e.1
    ⟨true, files2, pruneDirs files2 dest.dirs⟩
  else dest

theorem lexLt_self_append (l : List Char) (c : Char) (t : List Char) :
    lexLt l (l ++ c :: t) = true := by
  induction l with
  | nil => simp [lexLt]
  | cons a as ih => simp [lexLt, ih]

theorem splitSlash_ne_nil (l : List Char) : splitSlash l ≠ [] := by
  cases l with
  | nil => simp [splitSlash]
  | cons c rest =>
      by_cases hc : c == '/'
      · simp [splitSlash, hc]
      · simp only [splitSlash, hc, Bool.false_eq_true, if_false]
        match splitSlash rest with
        | g :: gs => simp
        | [] => simp

theorem joinSlashChars_cons (x : List Char) {cs : List (List Char)} (h : cs ≠ []) :
    joinSlashChars (x :: cs) = x ++ '/' :: joinSlashChars cs := by
  match cs with
  | [] => exact absurd rfl h
  | y :: ys => rfl

theorem joinSlashChars_splitSlash (l : List Char) :
    joinSlashChars (splitSlash l) = l := by
  induction l with
  | nil => rfl
  | cons c rest ih =>
      by_cases hc : c = '/'
      · subst hc
        simp only [splitSlash, beq_self_eq_true, if_pos]
        rw [joinSlashChars_cons [] (splitSlash_ne_nil rest), ih]
        rfl
      · have hcb : (c == '/') = false := by simp [hc]
        simp only [splitSlash, hcb, Bool.false_eq_true, if_false]
        match hs : splitSlash rest with
        | [] => exact absurd hs (splitSlash_ne_nil rest)
        | g :: gs =>
            rw [hs] at ih
            match gs with
            | [] =>
                simp only [joinSlashChars] at ih ⊢
                rw [ih]
            | z :: zs =>
                rw [joinSlashChars_cons g (by simp)] at ih
                rw [joinSlashChars_cons (c :: g) (by simp), ← ih]
                rfl

theorem joinSlashChars_dropLast : ∀ (cs : List (List Char)), 2 ≤ cs.length →
    joinSlashChars cs = joinSlashChars cs.dropLast ++ '/' :: cs.getLastD []
  | [], h => by simp at h
  | [x], h => by simp at h
  | x :: y :: rest, _ => by
      rw [joinSlashChars_cons x (by simp)]
      match rest with
      | [] => rfl
      | z :: zs =>
          have ih := joinSlashChars_dropLast (y :: z :: zs) (by simp)
          rw [ih]
          have hdl : (x :: y :: z :: zs).dropLast = x :: (y :: z :: zs).dropLast := rfl
          rw [hdl, joinSlashChars_cons x (by simp)]
          simp [List.getLastD_cons]

theorem parentDir_strLt {b : String} (h : parentDir b ≠ "") :
    strLt (parentDir b) b = true := by
  unfold parentDir at h ⊢
  match hn : (splitSlash b.data).length with
  | 0 => exact absurd (List.length_eq_zero.1 hn) (splitSlash_ne_nil b.data)
  | 1 =>
      exfalso
      obtain ⟨x, hx⟩ := List.length_eq_one.1 hn
      rw [hx] at h
      simp [joinSlashChars] at h
  | n + 2 =>
      have h2 : 2 ≤ (splitSlash b.data).length := by omega
      have hb : b.data = joinSlashChars ((splitSlash b.data).dropLast) ++
          '/' :: (splitSlash b.data).getLastD [] := by
        conv_lhs => rw [← joinSlashChars_splitSlash b.data]
        exact joinSlashChars_dropLast _ h2
      have hlt := lexLt_self_append (joinSlashChars ((splitSlash b.data).dropLast))
        '/' ((splitSlash b.data).getLastD [])
      rw [← hb] at hlt
      exact hlt

theorem pruneOrder_pairwise (dirs : List String) (hne : "" ∉ dirs) :
    (pruneOrder dirs).Pairwise fun a b => parentDir b ≠ a := by
  unfold pruneOrder
  have htrans : ∀ a b c : String, strLe a b = true → strLe b c = true →
      strLe a c = true := fun _ _ _ h₁ h₂ => strLe_trans h₁ h₂
  have htotal : ∀ a b : String, (strLe a b || strLe b a) = true := by
    intro a b
    rcases strLe_total a b with h | h <;> simp [h]
  have hs := List.sorted_mergeSort htrans htotal dirs
  rw [List.pairwise_reverse]
  refine List.Pairwise.imp_of_mem ?_ hs
  intro a b ha hb hle hpar
  have hbmem : b ∈ dirs := (List.mergeSort_perm dirs strLe).mem_iff.1 hb
  have hbne : b ≠ "" := fun hb0 => hne (hb0 ▸ hbmem)
  have hlt : strLt b a = true := by
    have := parentDir_strLt (b := a) (hpar.symm ▸ hbne)
    rwa [hpar] at this
  rw [strLe, hlt] at hle
  simp at hle

theorem pruneFold_no_empty (files : List (String × Nat)) :
    ∀ (order : List String), order.Pairwise (fun a b => parentDir b ≠ a) →
    ∀ (ds : List String), ds.Nodup →
    (∀ d ∈ ds, d ∉ order →
      (∃ f ∈ files, parentDir f.1 = d) ∨
        ∃ x ∈ ds, parentDir x = d ∧ x ∉ order) →
    ∀ d ∈ order.foldl (pruneStepDir files) ds,
      (∃ f ∈ files, parentDir f.1 = d) ∨
        ∃ x ∈ order.foldl (pruneStepDir files) ds, parentDir x = d := by
  intro order
  induction order with
  | nil =>
      intro _ ds _ H d hd
      simp only [List.foldl_nil] at hd ⊢
      rcases H d hd (by simp) with h | ⟨x, hx, hpx, _⟩
      · exact Or.inl h
      · exact Or.inr ⟨x, hx, hpx⟩
  | cons o rest ih =>
      intro hpw ds hnd H d hd
      obtain ⟨ho, hrestpw⟩ := List.pairwise_cons.1 hpw
      rw [List.foldl_cons] at hd ⊢
      have hndstep : (pruneStepDir files ds o).Nodup := by
        unfold pruneStepDir
        split
        · exact hnd.erase o
        · exact hnd
      refine ih hrestpw (pruneStepDir files ds o) hndstep ?_ d hd
      intro d' hd' hnotrest
      have hsub : pruneStepDir files ds o = ds ∨
          pruneStepDir files ds o = ds.erase o := by
        unfold pruneStepDir
        split
        · exact Or.inr rfl
        · exact Or.inl rfl
      by_cases hdo : d' = o
      · subst hdo
        have hdds : d' ∈ ds := by
          rcases hsub with hcase | hcase
          · rwa [hcase] at hd'
          · rw [hcase] at hd'
            exact List.mem_of_mem_erase hd'
        have hnoterase : pruneStepDir files ds d' = ds := by
          rcases hsub with hcase | hcase
          · exact hcase
          · exfalso
            rw [hcase] at hd'
            exact (List.Nodup.mem_erase_iff hnd).1 hd' |>.1 rfl
        have hcond : (ds.contains d' && !(hasChildIn d' ds files)) = false := by
          by_contra hcc
          rw [Bool.not_eq_false] at hcc
          have herase : pruneStepDir files ds d' = ds.erase d' := by
            unfold pruneStepDir
            rw [if_pos hcc]
          rw [herase] at hd'
          exact (List.Nodup.mem_erase_iff hnd).1 hd' |>.1 rfl
        have hcontains : ds.contains d' = true := by
          simpa using hdds
        rw [hcontains, Bool.true_and, Bool.not_eq_false'] at hcond
        unfold hasChildIn at hcond
        rcases Bool.or_eq_true_iff.1 hcond with hfc | hdc
        · obtain ⟨f, hf, hfp⟩ := List.any_eq_true.1 hfc
          exact Or.inl ⟨f, hf, by simpa using hfp⟩
        · obtain ⟨x, hx, hxp⟩ := List.any_eq_true.1 hdc
          have hxp' : parentDir x = d' := by simpa using hxp
          refine Or.inr ⟨x, ?_, hxp', ?_⟩
          · rw [hnoterase]; exact hx
          · intro hxrest
            exact ho x hxrest hxp'
      · have hdds : d' ∈ ds := by
          rcases hsub with hcase | hcase
          · rwa [hcase] at hd'
          · rw [hcase] at hd'
            exact List.mem_of_mem_erase hd'
        have hdnot : d' ∉ o :: rest := by
          intro hmem
          rcases List.mem_cons.1 hmem with h | h
          · exact hdo h
          · exact hnotrest h
        rcases H d' hdds hdnot with h | ⟨x, hx, hpx, hxnot⟩
        · exact Or.inl h
        · have hxo : x ≠ o := fun hxo => hxnot (hxo ▸ List.mem_cons_self o rest)
          refine Or.inr ⟨x, ?_, hpx, fun hxr => hxnot (List.mem_cons_of_mem _ hxr)⟩
          rcases hsub with hcase | hcase
          · rw [hcase]; exact hx
          · rw [hcase]; exact List.mem_erase_of_ne hxo |>.2 hx

/-- Claim C7 — Prune correctness: after `_prune_directory(dest, keep)`
on an existing destination, every remaining regular file is in the keep
set, every file that was in the keep set is untouched, and no directory
left empty by the removals remains — in fact every surviving directory
still has a direct child among the surviving files and directories
(empty directories are deleted deepest-first by the reverse-sorted
sweep). -/
theorem prune_correctness (dest : DestFS) (keep : List String)
    (hex : dest.dirExists = true) (hnd : dest.dirs.Nodup)
    (hroot : "" ∉ dest.dirs) :
    (∀ f ∈ (pruneDirectory keep dest).files, f.1 ∈ keep) ∧
    (∀ f ∈ dest.files, f.1 ∈ keep → f ∈ (pruneDirectory keep dest).files) ∧
    (∀ d ∈ (pruneDirectory keep dest).dirs,
      (∃ f ∈ (pruneDirectory keep dest).files, parentDir f.1 = d) ∨
        ∃ x ∈ (pruneDirectory keep dest).dirs, parentDir x = d) := by
  have hpd : pruneDirectory keep dest =
      ⟨true, dest.files.filter fun e => keep.contains e.1,
        pruneDirs (dest.files.filter fun e => keep.contains e.1) dest.dirs⟩ := by
    unfold pruneDirectory
    rw [hex]
    simp
  rw [hpd]
  refine ⟨?_, ?_, ?_⟩
  · intro f hf
    have := (List.mem_filter.1 hf).2
    simpa using this
  · intro f hf hk
    exact List.mem_filter.2 ⟨hf, by simpa using hk⟩
  · intro d hd
    exact pruneFold_no_empty _ (pruneOrder dest.dirs)
      (pruneOrder_pairwise dest.dirs hroot) dest.dirs hnd
      (fun d' hd' hnot => absurd (by
        unfold pruneOrder
        rw [List.mem_reverse]
        exact (List.mergeSort_perm dest.dirs strLe).mem_iff.2 hd') hnot) d hd

/-- Witness for C7: a destination holding a kept file, a stale file and a
directory that the removal leaves empty. -/
theorem prune_correctness_witness :
    ((⟨true, [("keep.txt", 1), ("old/z.txt", 2)], ["old"]⟩ : DestFS).dirExists
        = true) ∧
    (pruneDirectory ["keep.txt"]
        ⟨true, [("keep.txt", 1), ("old/z.txt", 2)], ["old"]⟩).files =
      [("keep.txt", 1)] ∧
    ∀ f ∈ (pruneDirectory ["keep.txt"]
        ⟨true, [("keep.txt", 1), ("old/z.txt", 2)], ["old"]⟩).files,
      f.1 ∈ ["keep.txt"] := by
  refine ⟨rfl, by decide, ?_⟩
  exact (prune_correctness ⟨true, [("keep.txt", 1), ("old/z.txt", 2)], ["old"]⟩
    ["keep.txt"] rfl (by decide) (by decide)).1


/-! ## The top-level pull orchestration (`gda/commands/pull.py`)

`_pull_impl` iterates the locked assets: an asset with no manifest
destination is skipped with a warning; an asset that verifies (`not
force and sync.verify_asset(...)`) is reported up to date and the loop
`continue`s — before the prune statement; otherwise `pull_asset` runs and,
with pruning enabled, `_prune_directory(dest, set(files))` runs once for
that asset.  The observable calls are recorded as an action trace.
-/

/-- One observable action of the `_pull_impl` loop. -/
inductive PullAction where
  | skippedNoDest (name : String)
  | upToDate (name : String)
  | pulled (name : String) (files : List String)
  | pruned (name : String) (keep : List String)
deriving DecidableEq, Repr

/-- The mutable state the loop threads: the destination directories by
path, and the shared download cache. -/
structure LoopState where
  dests : List (String × DestFS)
  cache : CacheFS
deriving DecidableEq, Repr

/-- Look a destination up by path; an unknown path is a non-existing
directory. -/
def lookupFS (st : List (String × DestFS)) (p : String) : DestFS :=
  ((st.find? fun e => e.1 == p).map fun e => e.2).getD ⟨false, [], []⟩

/-- Store a destination state back by path. -/
def updateFS (st : List (String × DestFS)) (p : String) (d : DestFS) :
    List (String × DestFS) :=
  setEntry st p d

/-- The body of `_pull_impl`'s per-asset loop. -/
def pullImplStep (hash : List ZEntry → String) (remote : String → List ZEntry)
    (force prune : Bool) (destOf : String → Option String)
    (st : LoopState) (trace : List PullAction) (p : String × LockedAsset) :
    Except HashMismatchErr (LoopState × List PullAction) :=
  match destOf p.1 with
  | none => .ok (st, trace ++ [.skippedNoDest p.1])
  | some destPath =>
      let dest := lookupFS st.dests destPath
      if !force && verifyAsset p.2 dest then
        .ok (st, trace ++ [.upToDate p.1])
      else
        let out := pullAsset hash remote p.2 force dest st.cache
        match out.result with
        | .error e => .error e
        | .ok files =>
            let st1 : LoopState := ⟨updateFS st.dests destPath out.dest, out.cache⟩
            if prune then
              .ok (⟨updateFS st1.dests destPath
                      (pruneDirectory files (lookupFS st1.dests destPath)),
                    st1.cache⟩,
                   trace ++ [.pulled p.1 files, .pruned p.1 files])
            else .ok (st1, trace ++ [.pulled p.1 files])

/-- `_pull_impl`'s loop over the locked assets; a raised
`HashMismatchError` aborts it. -/
def pullImplLoop (hash : List ZEntry → String) (remote : String → List ZEntry)
    (force prune : Bool) (destOf : String → Option String) :
    List (String × LockedAsset) → LoopState → List PullAction →
    Except HashMismatchErr (LoopState × List PullAction)
  | [], st, tr => .ok (st, tr)
  | p :: rest, st, tr =>
      match pullImplStep hash remote force prune destOf st tr p with
      | .error e => .error e
      | .ok (st1, tr1) => pullImplLoop hash remote force prune destOf rest st1 tr1

theorem find?_setEntry {β : Type} (st : List (String × β)) (p : String) (v : β) :
    ((setEntry st p v).find? fun e => e.1 == p) = some (p, v) := by
  unfold setEntry
  by_cases hany : st.any (fun e => e.1 == p) = true
  · rw [if_pos hany]
    induction st with
    | nil => simp at hany
    | cons e rest ih =>
        simp only [List.any_cons, Bool.or_eq_true] at hany
        by_cases he : e.1 = p
        · simp [List.find?_cons, he]
        · have hb : (e.1 == p) = false := by simpa using he
          rcases hany with h | h
          · exact absurd (by simpa using h) he
          · simp only [List.map_cons]
            rw [show (if (e.1 == p) = true then (p, v) else e) = e from by
              rw [hb]; simp]
            simp only [List.find?_cons, hb]
            exact ih h
  · rw [if_neg hany]
    have hnone : (st.find? fun e => e.1 == p) = none := by
      rw [List.find?_eq_none]
      intro x hx hbx
      exact hany (List.any_eq_true.2 ⟨x, hx, hbx⟩)
    rw [List.find?_append, hnone]
    simp [List.find?_cons]

theorem lookupFS_updateFS (st : List (String × DestFS)) (p : String) (d : DestFS) :
    lookupFS (updateFS st p d) p = d := by
  unfold lookupFS updateFS
  rw [find?_setEntry]
  rfl

/-- Counterexample to C8 as stated: one locked asset that verifies (its
file `f.txt` exists under `out`), pruning enabled, a stale file
`stale.txt` under `out`.  The loop reports the asset up to date and
finishes with the destination unchanged — no prune action occurs and the
stale file survives, although the claim requires prune to run after a
verify hit. -/
theorem pull_prune_verify_hit_counterexample :
    pullImplLoop (fun _ => "abc") (fun _ => []) false true (fun _ => some "out")
        [("data", ⟨"data", "u", "abc", ["f.txt"]⟩)]
        ⟨[("out", ⟨true, [("f.txt", 1), ("stale.txt", 9)], []⟩)], ⟨false, []⟩⟩ [] =
      .ok (⟨[("out", ⟨true, [("f.txt", 1), ("stale.txt", 9)], []⟩)], ⟨false, []⟩⟩,
        [.upToDate "data"]) := by
  rfl

/-- Claim C8 (amended) — In the top-level pull orchestration
(`_pull_impl`) with pruning enabled: an asset that verifies is skipped
before the prune statement, leaving the state untouched and recording
only an up-to-date action — prune is NOT invoked on a verify hit; an
asset that actually pulls successfully is followed by exactly one prune
of its own destination with its fresh file list as the keep set. -/
theorem pull_impl_prune_behaviour (hash : List ZEntry → String)
    (remote : String → List ZEntry) (destOf : String → Option String)
    (st : LoopState) (trace : List PullAction) (name : String)
    (asset : LockedAsset) (destPath : String)
    (hdest : destOf name = some destPath) :
    (verifyAsset asset (lookupFS st.dests destPath) = true →
      pullImplStep hash remote false true destOf st trace (name, asset) =
        .ok (st, trace ++ [.upToDate name])) ∧
    (∀ force files,
      (pullAsset hash remote asset force (lookupFS st.dests destPath)
          st.cache).result = .ok files →
      (force = true ∨ verifyAsset asset (lookupFS st.dests destPath) = false) →
      pullImplStep hash remote force true destOf st trace (name, asset) =
        .ok (⟨updateFS (updateFS st.dests destPath
                (pullAsset hash remote asset force (lookupFS st.dests destPath)
                  st.cache).dest) destPath
                (pruneDirectory files
                  (pullAsset hash remote asset force (lookupFS st.dests destPath)
                    st.cache).dest),
              (pullAsset hash remote asset force (lookupFS st.dests destPath)
                st.cache).cache⟩,
             trace ++ [.pulled name files, .pruned name files])) := by
  constructor
  · intro hv
    unfold pullImplStep
    rw [hdest]
    dsimp only
    rw [hv]
    rfl
  · intro force files hok hguard
    have hg : (!force && verifyAsset asset (lookupFS st.dests destPath)) = false := by
      rcases hguard with h | h <;> simp [h]
    unfold pullImplStep
    rw [hdest]
    dsimp only
    rw [hg]
    simp only [Bool.false_eq_true, if_false]
    rw [hok]
    dsimp only
    rw [lookupFS_updateFS]
    simp

/-- Witness for the amended C8: the verify-hit branch at the concrete
state of the counterexample, and a forced pull that prunes once. -/
theorem pull_impl_prune_behaviour_witness :
    ((fun _ : String => some "out") "data" = some "out") ∧
    verifyAsset ⟨"data", "u", "abc", ["f.txt"]⟩
      (lookupFS [("out", ⟨true, [("f.txt", 1), ("stale.txt", 9)], []⟩)] "out")
      = true ∧
    pullImplStep (fun _ => "abc") (fun _ => []) false true (fun _ => some "out")
        ⟨[("out", ⟨true, [("f.txt", 1), ("stale.txt", 9)], []⟩)], ⟨false, []⟩⟩ []
        ("data", ⟨"data", "u", "abc", ["f.txt"]⟩) =
      .ok (⟨[("out", ⟨true, [("f.txt", 1), ("stale.txt", 9)], []⟩)], ⟨false, []⟩⟩,
        [.upToDate "data"]) := by
  refine ⟨rfl, by decide, ?_⟩
  exact (pull_impl_prune_behaviour (fun _ => "abc") (fun _ => [])
    (fun _ => some "out")
    ⟨[("out", ⟨true, [("f.txt", 1), ("stale.txt", 9)], []⟩)], ⟨false, []⟩⟩ []
    "data" ⟨"data", "u", "abc", ["f.txt"]⟩ "out" rfl).1 (by decide)

end Gda
